import Mathlib

/-!
Verification of the templ code generator (`generator.go`) and the
templ-element parser fragment, against a shallow embedding in Lean.

The embedding follows the Go source: pure functions become Lean functions,
the stateful generator becomes explicit state passing over `GenState`.
Types from the `parser` package (AST nodes, `Position`, `Range`,
`SourceMap`) and the `RangeWriter` are not part of the provided source
files; they are modelled from the specification where noted.
-/

namespace Templ

/-- Modelled from the spec: `Position { byte_offset, line, col }` of the
`parser` package (not in the provided source). -/
structure Position where
  Index : Nat
  Line : Nat
  Col : Nat
deriving DecidableEq, Repr

/-- Modelled from the spec: `Range { from, to }`, half-open, of the
`parser` package (not in the provided source). -/
structure Range where
  From : Position
  To : Position
deriving DecidableEq, Repr

/-- Modelled from the spec: an `Expression` is host-language text plus its
source range. -/
structure Expression where
  Value : String
  ExprRange : Range
deriving DecidableEq, Repr

/-- A source-map entry: a pair of source range and target (destination)
range. Modelled from the spec (`SourceMap` of the `parser` package is not
in the provided source): `expressions: [(src, dst)]`. -/
structure SourceMapEntry where
  Source : Range
  Target : Range
deriving DecidableEq, Repr

/-- Modelled from the spec: the source map is two append-ordered vectors,
`expressions` and `symbol_ranges`. -/
structure SourceMap where
  Expressions : List SourceMapEntry
  SymbolRanges : List SourceMapEntry
deriving DecidableEq, Repr

/-- `GeneratorOptions` from generator.go. -/
structure GeneratorOptions where
  Version : String
  FileName : String
  SkipCodeGeneratedComment : Bool
  GeneratedDate : String
deriving DecidableEq, Repr

/-- `GeneratorOutput` from generator.go. -/
structure GeneratorOutput where
  Options : GeneratorOptions
  SourceMap : SourceMap
  Literals : List String
deriving DecidableEq, Repr

/-- The loop at the end of `HasGoChanged`: `for i, prev := range
previous.SourceMap.Expressions { if prev != updated.SourceMap.Expressions[i]
{ return true } }`.  The loop is only reached when both lists have equal
length, so the pairwise walk is the faithful translation. -/
def anyExpressionPairDiffers : List SourceMapEntry → List SourceMapEntry → Bool
  | p :: ps, u :: us => if p ≠ u then true else anyExpressionPairDiffers ps us
  | _, _ => false

/-- `HasGoChanged` from generator.go: returns true if the Go code has
changed between the previous and updated `GeneratorOutput`. -/
def HasGoChanged (previous updated : GeneratorOutput) : Bool :=
  if previous.Options.Version ≠ updated.Options.Version then true
  else if previous.Options.FileName ≠ updated.Options.FileName then true
  else if previous.Options.SkipCodeGeneratedComment ≠ updated.Options.SkipCodeGeneratedComment then true
  else if previous.Literals.length ≠ updated.Literals.length then true
  else if previous.SourceMap.Expressions.length ≠ updated.SourceMap.Expressions.length then true
  else anyExpressionPairDiffers previous.SourceMap.Expressions updated.SourceMap.Expressions

/-- `HasTextChanged` from generator.go (pairwise literal comparison after a
length check). -/
def HasTextChanged (previous updated : GeneratorOutput) : Bool :=
  if previous.Literals.length ≠ updated.Literals.length then true
  else (previous.Literals.zip updated.Literals).any (fun pu => pu.1 ≠ pu.2)

theorem anyExpressionPairDiffers_self (l : List SourceMapEntry) :
    anyExpressionPairDiffers l l = false := by
  induction l with
  | nil => rfl
  | cons a l ih => simp [anyExpressionPairDiffers, ih]

theorem anyExpressionPairDiffers_iff (ps us : List SourceMapEntry)
    (h : ps.length = us.length) :
    anyExpressionPairDiffers ps us = true ↔
      ∃ i, i < ps.length ∧ ps[i]? ≠ us[i]? := by
  induction ps generalizing us with
  | nil =>
    cases us with
    | nil => simp [anyExpressionPairDiffers]
    | cons u us => simp at h
  | cons p ps ih =>
    cases us with
    | nil => simp at h
    | cons u us =>
      simp only [List.length_cons, Nat.succ.injEq] at h
      by_cases hpu : p = u
      · subst hpu
        simp only [anyExpressionPairDiffers, ne_eq, not_true_eq_false, if_false]
        rw [ih us h]
        constructor
        · rintro ⟨i, hi, hne⟩
          exact ⟨i + 1, by simpa using hi, by simpa using hne⟩
        · rintro ⟨i, hi, hne⟩
          cases i with
          | zero => simp at hne
          | succ j =>
            exact ⟨j, by simpa using hi, by simpa using hne⟩
      · simp only [anyExpressionPairDiffers, ne_eq, hpu, not_false_eq_true, if_true,
          true_iff]
        exact ⟨0, by simp, by simpa using hpu⟩

/-- C1: `HasGoChanged(prev, next)` is true iff `options.Version`,
`options.FileName`, `options.SkipCodeGeneratedComment`, the number of
literals, the number of source-map expressions, or some expression pair at
the same index differ; in particular `HasGoChanged(g, g)` is false and two
outputs differing only in `options.GeneratedDate` compare as unchanged. -/
theorem hasGoChanged_characterization (p u : GeneratorOutput) :
    (HasGoChanged p u = true ↔
      (p.Options.Version ≠ u.Options.Version ∨
       p.Options.FileName ≠ u.Options.FileName ∨
       p.Options.SkipCodeGeneratedComment ≠ u.Options.SkipCodeGeneratedComment ∨
       p.Literals.length ≠ u.Literals.length ∨
       p.SourceMap.Expressions.length ≠ u.SourceMap.Expressions.length ∨
       ∃ i, i < p.SourceMap.Expressions.length ∧
         p.SourceMap.Expressions[i]? ≠ u.SourceMap.Expressions[i]?)) ∧
    HasGoChanged p p = false ∧
    (∀ d, HasGoChanged p { p with Options := { p.Options with GeneratedDate := d } } = false) := by
  refine ⟨?_, ?_, ?_⟩
  · simp only [HasGoChanged]
    split_ifs with h1 h2 h3 h4 h5
    · simp [h1]
    · simp [h2]
    · simp [h3]
    · simp [h4]
    · simp [h5]
    · rw [not_not] at h1 h2 h3 h4 h5
      rw [anyExpressionPairDiffers_iff _ _ h5]
      simp [h1, h2, h3, h4, h5]
  · simp [HasGoChanged, anyExpressionPairDiffers_self]
  · intro d
    simp [HasGoChanged, anyExpressionPairDiffers_self]

/-- Modelled from the spec: `TrailingSpace` marker values none / horizontal /
vertical of the `parser` package (Go constants `SpaceNone = ""`,
`SpaceHorizontal = " "`, `SpaceVertical = "\n"`, not in the provided
source). -/
inductive TrailingSpace where
  | SpaceNone
  | SpaceHorizontal
  | SpaceVertical
deriving DecidableEq, Repr

/-- The underlying string of a `TrailingSpace` marker (Go `TrailingSpace` is
a string type). -/
def TrailingSpace.str : TrailingSpace → String
  | .SpaceNone => ""
  | .SpaceHorizontal => " "
  | .SpaceVertical => "\n"

/-- Modelled from the spec: attribute keys are either a constant string or
an expression (`parser.ConstantAttributeKey` / `parser.ExpressionAttributeKey`,
not in the provided source). -/
inductive AttributeKey where
  | ConstantAttributeKey (Name : String)
  | ExpressionAttributeKey (Expr : Expression)
deriving DecidableEq, Repr

/-- Modelled from the spec: `Key.String()` — the constant name, or the
expression text for expression keys. -/
def AttributeKey.keyString : AttributeKey → String
  | .ConstantAttributeKey n => n
  | .ExpressionAttributeKey e => e.Value

/-- Modelled from the spec: the `parser` package attribute variants (not in
the provided source). -/
inductive Attribute where
  | BoolConstantAttribute (Key : AttributeKey)
  | ConstantAttribute (Key : AttributeKey) (Value : String) (SingleQuote : Bool)
  | BoolExpressionAttribute (Key : AttributeKey) (Expr : Expression)
  | ExpressionAttribute (Key : AttributeKey) (Expr : Expression)
  | SpreadAttributes (Expr : Expression)
  | ConditionalAttribute (Expr : Expression) (ThenAttrs : List Attribute) (ElseAttrs : List Attribute)
deriving Repr

/-- Modelled from the spec: script-element contents are either a verbatim
JS string or an embedded Go-code expression (with its trailing space and a
flag telling whether it sits inside a JS string literal). -/
inductive ScriptContents where
  | value (s : String)
  | goCode (Expr : Expression) (TrailingSpace : TrailingSpace) (InsideStringLiteral : Bool)
deriving DecidableEq, Repr

/-- Modelled from the spec: the `parser` package node variants used inside
an HTML template (not in the provided source).  The trailing-space marker
is carried by the node kinds that implement `parser.WhitespaceTrailer`
(element, text, string expression, Go code). -/
inductive Node where
  | DocType (Value : String)
  | Element (Name : String) (Attributes : List Attribute) (Children : List Node)
      (Trailing : TrailingSpace)
  | HTMLComment (Contents : String)
  | ChildrenExpression
  | RawElement (Name : String) (Attributes : List Attribute) (Contents : String)
  | ScriptElement (Attributes : List Attribute) (Contents : List ScriptContents)
  | ForExpression (Expr : Expression) (Children : List Node)
  | CallTemplateExpression (Expr : Expression)
  | TemplElementExpression (Expr : Expression) (Children : List Node)
  | IfExpression (Expr : Expression) (Then : List Node)
      (ElseIfs : List (Expression × List Node)) (Else : List Node)
  | SwitchExpression (Expr : Expression) (Cases : List (Expression × List Node))
  | StringExpression (Expr : Expression) (Trailing : TrailingSpace)
  | GoCode (Expr : Expression) (Trailing : TrailingSpace)
  | Whitespace (Value : String)
  | Text (Value : String) (Trailing : TrailingSpace)
  | GoComment (Contents : String)
deriving Repr

/-- The Go type switch `n.(*parser.Whitespace)`. -/
def isWhitespaceNode : Node → Bool
  | .Whitespace _ => true
  | _ => false

/-- `stripWhitespace` from generator.go: removes all `Whitespace` nodes. -/
def stripWhitespace : List Node → List Node
  | [] => []
  | n :: rest =>
      if isWhitespaceNode n then stripWhitespace rest else n :: stripWhitespace rest

/-- `stripLeadingWhitespace` from generator.go: drops leading `Whitespace`
nodes, returning the suffix from the first non-whitespace node. -/
def stripLeadingWhitespace : List Node → List Node
  | [] => []
  | n :: rest => if isWhitespaceNode n then stripLeadingWhitespace rest else n :: rest

/-- `stripTrailingWhitespace` from generator.go: keeps the prefix up to and
including the last non-whitespace node. -/
def stripTrailingWhitespace : List Node → List Node
  | [] => []
  | n :: rest =>
      match stripTrailingWhitespace rest with
      | [] => if isWhitespaceNode n then [] else [n]
      | r => n :: r

/-- `stripLeadingAndTrailingWhitespace` from generator.go. -/
def stripLeadingAndTrailingWhitespace (nodes : List Node) : List Node :=
  stripTrailingWhitespace (stripLeadingWhitespace nodes)

theorem sizeOf_stripWhitespace_le (l : List Node) :
    sizeOf (stripWhitespace l) ≤ sizeOf l := by
  induction l with
  | nil => simp [stripWhitespace]
  | cons n rest ih =>
      simp only [stripWhitespace]
      split
      · simp only [List.cons.sizeOf_spec]
        omega
      · simp only [List.cons.sizeOf_spec]
        omega

theorem sizeOf_stripLeadingWhitespace_le (l : List Node) :
    sizeOf (stripLeadingWhitespace l) ≤ sizeOf l := by
  induction l with
  | nil => simp [stripLeadingWhitespace]
  | cons n rest ih =>
      simp only [stripLeadingWhitespace]
      split
      · simp only [List.cons.sizeOf_spec]
        omega
      · simp

theorem sizeOf_stripTrailingWhitespace_le (l : List Node) :
    sizeOf (stripTrailingWhitespace l) ≤ sizeOf l := by
  induction l with
  | nil => simp [stripTrailingWhitespace]
  | cons n rest ih =>
      simp only [stripTrailingWhitespace]
      cases hr : stripTrailingWhitespace rest with
      | nil =>
          rw [hr] at ih
          simp only
          split
          · simp only [List.cons.sizeOf_spec, List.nil.sizeOf_spec] at ih ⊢
            omega
          · simp only [List.cons.sizeOf_spec, List.nil.sizeOf_spec] at ih ⊢
            omega
      | cons a r =>
          rw [hr] at ih
          simp only
          simp only [List.cons.sizeOf_spec] at ih ⊢
          omega

theorem sizeOf_stripLeadingAndTrailingWhitespace_le (l : List Node) :
    sizeOf (stripLeadingAndTrailingWhitespace l) ≤ sizeOf l :=
  le_trans (sizeOf_stripTrailingWhitespace_le _) (sizeOf_stripLeadingWhitespace_le _)

theorem one_le_sizeOf_list {α : Type} [SizeOf α] (l : List α) : 1 ≤ sizeOf l := by
  cases l with
  | nil => simp
  | cons a r => simp only [List.cons.sizeOf_spec]; omega

theorem sizeOf_snd_lt {α β : Type} [SizeOf α] [SizeOf β] (p : α × β) :
    sizeOf p.2 < sizeOf p := by
  cases p with
  | mk a b => simp only [Prod.mk.sizeOf_spec]; omega

/-- Modelled from Go `unicode.IsSpace` (standard library), restricted to
the Latin-1 white-space code points. -/
def goIsSpace (c : Char) : Bool :=
  c == ' ' || c == '\t' || c == '\n' || c.toNat == 11 || c.toNat == 12 ||
    c == '\r' || c.toNat == 0x85 || c.toNat == 0xA0

/-- Modelled from Go `strings.TrimSpace` (standard library): drop white
space from both ends. -/
def goTrimSpace (s : String) : String :=
  String.mk (((s.data.dropWhile goIsSpace).reverse.dropWhile goIsSpace).reverse)

/-- Modelled from Go `html.EscapeString` (standard library), per character:
it escapes exactly the five characters ampersand, apostrophe, less-than,
greater-than and double quote. -/
def htmlEscapeChar (c : Char) : String :=
  if c == '&' then "&amp;"
  else if c.toNat == 39 then "&#39;"
  else if c == '<' then "&lt;"
  else if c == '>' then "&gt;"
  else if c.toNat == 34 then "&#34;"
  else String.singleton c

/-- The character-wise concatenation underlying `html.EscapeString`. -/
def htmlEscapeData : List Char → List Char
  | [] => []
  | c :: rest => (htmlEscapeChar c).data ++ htmlEscapeData rest

/-- Modelled from Go `html.EscapeString` (standard library). -/
def htmlEscapeString (s : String) : String :=
  String.mk (htmlEscapeData s.data)

/-- Lower-case hexadecimal digit, as produced by Go `strconv`. -/
def hexDigit (n : Nat) : Char :=
  if n < 10 then Char.ofNat (48 + n) else Char.ofNat (87 + n)

/-- Modelled from Go `strconv.Quote` (standard library), per rune, without
the surrounding double quotes: double quote and backslash get a backslash
escape, printable ASCII is kept verbatim, the named control escapes
`\a \b \f \n \r \t \v` are used, and remaining ASCII control characters use
`\xHH`.  Non-ASCII code points are kept verbatim (Go additionally escapes
the unprintable ones, which the generator does not meet). -/
def quoteRune (c : Char) : String :=
  if c.toNat == 34 then "\\\""
  else if c == '\\' then "\\\\"
  else if 0x20 ≤ c.toNat && c.toNat ≤ 0x7E then String.singleton c
  else if c.toNat == 7 then "\\a"
  else if c.toNat == 8 then "\\b"
  else if c.toNat == 12 then "\\f"
  else if c == '\n' then "\\n"
  else if c == '\r' then "\\r"
  else if c == '\t' then "\\t"
  else if c.toNat == 11 then "\\v"
  else if c.toNat < 0x80 then
    String.mk ['\\', 'x', hexDigit (c.toNat / 16), hexDigit (c.toNat % 16)]
  else String.singleton c

/-- The rune-wise concatenation underlying `strconv.Quote`. -/
def escapeQuotesData : List Char → List Char
  | [] => []
  | c :: rest => (quoteRune c).data ++ escapeQuotesData rest

/-- `escapeQuotes` from generator.go: `strconv.Quote(s)` stripped of the
outer double quotes, i.e. the concatenation of the per-rune quotings. -/
def escapeQuotes (s : String) : String :=
  String.mk (escapeQuotesData s.data)

/-- Split a character list at every occurrence of `c` (the pieces, in
order, with empty pieces kept) — `strings.Split` on a one-character
separator. -/
def splitOnCharAux (c : Char) : List Char → List Char → List (List Char)
  | [], acc => [acc.reverse]
  | x :: rest, acc =>
    if x = c then acc.reverse :: splitOnCharAux c rest []
    else splitOnCharAux c rest (x :: acc)

def splitOnChar (c : Char) (l : List Char) : List (List Char) :=
  splitOnCharAux c l []

/-- `strings.HasPrefix(s, "//")` on a character list. -/
def startsWithSlashSlash : List Char → Bool
  | '/' :: '/' :: _ => true
  | _ => false

/-- `strings.Join` of a list of strings with a separator. -/
def joinStrings (sep : String) : List String → String
  | [] => ""
  | [x] => x
  | x :: rest => x ++ sep ++ joinStrings sep rest

/-- `createGoString` from generator.go: wrap in backquotes, splicing any
embedded backquote via a quoted string concatenation. -/
def createGoString (s : String) : String :=
  "`" ++ joinStrings ("` + \"`\" + `") ((splitOnChar '`' s.data).map String.mk) ++ "`"

/-- `stripTypes` from generator.go: split the parameter list on commas and
keep the first space-separated token of each entry. -/
def stripTypes (parameters : String) : String :=
  String.intercalate ", "
    ((parameters.splitOn ",").map (fun param =>
      goTrimSpace (((goTrimSpace param).splitOn " ").headD "")))

/-- `isScriptAttribute` from generator.go. -/
def isScriptAttribute (name : String) : Bool :=
  ["on", "hx-on:"].any (fun p => name.startsWith p)

/-- `isExpressionAttributeValueURL` from generator.go. -/
def isExpressionAttributeValueURL (elementName attrName : String) : Bool :=
  if elementName == "a" || elementName == "link" then attrName == "href"
  else if elementName == "form" then attrName == "action"
  else if elementName == "object" then attrName == "data"
  else false

/-- Modelled from the spec: the HTML void-element set used by
`Element.IsVoidElement` of the `parser` package (not in the provided
source). -/
def voidElementNames : List String :=
  ["area", "base", "br", "col", "command", "embed", "hr", "img", "input",
   "keygen", "link", "meta", "param", "source", "track", "wbr"]

/-- Modelled from the spec: `Element.IsVoidElement` of the `parser`
package. -/
def isVoidElement (name : String) : Bool :=
  voidElementNames.contains name

/-- Modelled from the spec: the block-level tag set used by
`Element.IsBlockElement` of the `parser` package (not in the provided
source); HTML defaults. -/
def blockElementNames : List String :=
  ["address", "article", "aside", "blockquote", "canvas", "dd", "div", "dl",
   "dt", "fieldset", "figcaption", "figure", "footer", "form", "h1", "h2",
   "h3", "h4", "h5", "h6", "header", "hr", "li", "main", "nav", "noscript",
   "ol", "p", "pre", "section", "table", "tfoot", "ul", "video"]

/-- Modelled from the spec: `Element.IsBlockElement` of the `parser`
package. -/
def isBlockElement (name : String) : Bool :=
  blockElementNames.contains name

/-- `isInlineOrText` from generator.go (a nil node — here `none` — is not
inline-or-text). -/
def isInlineOrText : Option Node → Bool
  | none => false
  | some n =>
    match n with
    | .IfExpression _ _ _ _ => true
    | .SwitchExpression _ _ => true
    | .ForExpression _ _ => true
    | .Element name _ _ _ => !(isBlockElement name)
    | .Text _ _ => true
    | .StringExpression _ _ => true
    | _ => false

/-- Modelled from the spec: the node kinds that carry a trailing-space
marker (i.e. implement `parser.WhitespaceTrailer`, not in the provided
source): elements, text, string expressions and Go code. -/
def nodeTrailing : Node → Option TrailingSpace
  | .Element _ _ _ tr => some tr
  | .Text _ tr => some tr
  | .StringExpression _ tr => some tr
  | .GoCode _ tr => some tr
  | _ => none

/-- Modelled from the spec: an HTML template declaration (`parser.HTMLTemplate`). -/
structure HTMLTemplate where
  Expr : Expression
  Children : List Node
  TRange : Range
deriving Repr

/-- Modelled from the spec: a CSS template property (`parser.CSSProperty`
variants). -/
inductive CSSProperty where
  | ConstantCSSProperty (Name : String) (Value : String)
  | ExpressionCSSProperty (Name : String) (Value : Expression)
deriving Repr

/-- Modelled from the spec: `p.String(true)` of a constant CSS property —
its minified `name:value;` rendering. -/
def constantCSSPropertyString (name value : String) : String :=
  name ++ ":" ++ value ++ ";"

/-- Modelled from the spec: a CSS template declaration (`parser.CSSTemplate`). -/
structure CSSTemplate where
  Expr : Expression
  Name : String
  Properties : List CSSProperty
  CRange : Range
deriving Repr

/-- Modelled from the spec: a script template declaration
(`parser.ScriptTemplate`). -/
structure ScriptTemplate where
  Name : Expression
  Parameters : Expression
  Value : String
  SRange : Range
deriving Repr

/-- Modelled from the spec: a top-level node of a template file —
host pass-through Go expression, HTML template, CSS template, or script
template. -/
inductive TemplateFileNode where
  | TemplateFileGoExpression (Expr : Expression)
  | HTMLTemplateNode (t : HTMLTemplate)
  | CSSTemplateNode (c : CSSTemplate)
  | ScriptTemplateNode (s : ScriptTemplate)
deriving Repr

/-- Modelled from the spec: a parsed template file — header blocks, package
declaration, top-level nodes. -/
structure TemplateFile where
  Header : List Expression
  Package : Expression
  Nodes : List TemplateFileNode
deriving Repr

/-- The generator state: the `generator` struct of generator.go plus the
`RangeWriter` it owns (output text, cursor, recorded literals — the
`RangeWriter` is modelled from the spec, as it is not in the provided
source). -/
structure GenState where
  tf : TemplateFile
  out : String
  pos : Position
  Literals : List String
  sourceMap : SourceMap
  variableID : Nat
  childrenVar : String
  options : GeneratorOptions
deriving Repr

/-- Modelled from the spec: the `RangeWriter` cursor advance — count
newlines and columns over the written text, character by character. -/
def advanceAux : Position → List Char → Position
  | p, [] => p
  | p, c :: rest =>
    advanceAux (if c = '\n' then ⟨p.Index + 1, p.Line + 1, 0⟩
      else ⟨p.Index + 1, p.Line, p.Col + 1⟩) rest

/-- Modelled from the spec: the `RangeWriter` cursor advance over a written
string. -/
def advance (p : Position) (s : String) : Position :=
  advanceAux p s.data

/-- Modelled from the spec: `RangeWriter.Write` — append, advance the
cursor, and return the `[from, to)` range just written. -/
def GenState.write (g : GenState) (s : String) : GenState × Range :=
  let f := g.pos
  let t := advance g.pos s
  ({ g with out := g.out ++ s, pos := t }, ⟨f, t⟩)

/-- The `level`-tab indentation prefix of `RangeWriter.WriteIndent`. -/
def tabs : Nat → String
  | 0 => ""
  | n + 1 => "\t" ++ tabs n

/-- Modelled from the spec: `RangeWriter.WriteIndent` — `level` tabs, then
the text. -/
def GenState.writeIndent (g : GenState) (level : Nat) (s : String) : GenState × Range :=
  g.write (tabs level ++ s)

/-- Modelled from the spec: `RangeWriter.WriteStringLiteral` — emit the Go
statement that writes `s` to the render buffer, and append `s` to the
literals vector. -/
def GenState.writeStringLiteral (g : GenState) (level : Nat) (s : String) : GenState × Range :=
  let gr := g.writeIndent level
    ("_, templ_7745c5c3_Err = templ_7745c5c3_Buffer.WriteString(\"" ++ s ++ "\")\n")
  ({ gr.1 with Literals := gr.1.Literals ++ [s] }, gr.2)

/-- `g.sourceMap.Add(expression, r)`: append an expressions entry. -/
def GenState.sourceMapAdd (g : GenState) (e : Expression) (r : Range) : GenState :=
  { g with sourceMap :=
      { g.sourceMap with Expressions := g.sourceMap.Expressions ++ [⟨e.ExprRange, r⟩] } }

/-- `g.sourceMap.AddSymbolRange(src, tgt)`: append a symbol-ranges entry. -/
def GenState.addSymbolRange (g : GenState) (src tgt : Range) : GenState :=
  { g with sourceMap :=
      { g.sourceMap with SymbolRanges := g.sourceMap.SymbolRanges ++ [⟨src, tgt⟩] } }

/-- `createVariableName` from generator.go: bump the counter and build
`templ_7745c5c3_VarN`. -/
def GenState.createVariableName (g : GenState) : GenState × String :=
  ({ g with variableID := g.variableID + 1 },
   "templ_7745c5c3_Var" ++ toString (g.variableID + 1))

/-- `writeErrorHandler` from generator.go. -/
def writeErrorHandler (indentLevel : Nat) (g : GenState) : GenState :=
  let g := (g.writeIndent indentLevel "if templ_7745c5c3_Err != nil \x7b\n").1
  let g := (g.writeIndent (indentLevel + 1) "return templ_7745c5c3_Err\n").1
  (g.writeIndent indentLevel "\x7d\n").1

/-- `writeExpressionErrorHandler` from generator.go: a structured error
carrying file name and the source expression's end line (1-based) and
column. -/
def writeExpressionErrorHandler (indentLevel : Nat) (expression : Expression) (g : GenState) : GenState :=
  let g := (g.writeIndent indentLevel "if templ_7745c5c3_Err != nil \x7b\n").1
  let line := expression.ExprRange.To.Line + 1
  let col := expression.ExprRange.To.Col
  let g := (g.writeIndent (indentLevel + 1)
    ("return\ttempl.Error\x7bErr: templ_7745c5c3_Err, FileName: " ++
     createGoString g.options.FileName ++ ", Line: " ++ toString line ++
     ", Col: " ++ toString col ++ "\x7d\n")).1
  (g.writeIndent indentLevel "\x7d\n").1

/-- `writeDocType` from generator.go. -/
def writeDocType (indentLevel : Nat) (value : String) (g : GenState) : GenState :=
  (g.writeStringLiteral indentLevel ("<!doctype " ++ escapeQuotes value ++ ">")).1

/-- `writeText` from generator.go (it only reads the text node's value). -/
def writeText (indentLevel : Nat) (value : String) (g : GenState) : GenState :=
  (g.writeStringLiteral indentLevel (escapeQuotes value)).1

/-- `writeWhitespace` from generator.go. -/
def writeWhitespace (indentLevel : Nat) (value : String) (g : GenState) : GenState :=
  if value.length == 0 then g
  else (g.writeStringLiteral indentLevel " ").1

/-- `writeWhitespaceTrailer` from generator.go: skip `SpaceNone`, normalize
vertical to horizontal, emit the marker string as a literal. -/
def writeWhitespaceTrailer (indentLevel : Nat) (n : TrailingSpace) (g : GenState) : GenState :=
  if n = .SpaceNone then g
  else
    let n := if n = .SpaceVertical then TrailingSpace.SpaceHorizontal else n
    (g.writeStringLiteral indentLevel n.str).1

/-- `writeComment` from generator.go. -/
def writeComment (indentLevel : Nat) (contents : String) (g : GenState) : GenState :=
  let g := (g.writeStringLiteral indentLevel "<!--").1
  let g := writeText indentLevel contents g
  (g.writeStringLiteral indentLevel "-->").1

/-- `writeChildrenExpression` from generator.go. -/
def writeChildrenExpression (indentLevel : Nat) (g : GenState) : GenState :=
  let g1 := (g.writeIndent indentLevel
    ("templ_7745c5c3_Err = " ++ g.childrenVar ++ ".Render(ctx, templ_7745c5c3_Buffer)\n")).1
  writeErrorHandler indentLevel g1

/-- `writeGoCode` from generator.go. -/
def writeGoCode (indentLevel : Nat) (e : Expression) (g : GenState) : GenState :=
  if goTrimSpace e.Value == "" then g
  else
    let gr := g.writeIndent indentLevel (e.Value ++ "\n")
    gr.1.sourceMapAdd e gr.2

/-- `writeStringExpression` from generator.go. -/
def writeStringExpression (indentLevel : Nat) (e : Expression) (g : GenState) : GenState :=
  if goTrimSpace e.Value == "" then g
  else
    let gv := g.createVariableName
    let vn := gv.2
    let g := (gv.1.writeIndent indentLevel ("var " ++ vn ++ " string\n")).1
    let g := (g.writeIndent indentLevel (vn ++ ", templ_7745c5c3_Err = templ.JoinStringErrs(")).1
    let gr := g.write e.Value
    let g := gr.1.sourceMapAdd e gr.2
    let g := (g.write ")\n").1
    let g := writeExpressionErrorHandler indentLevel e g
    let g := (g.writeIndent indentLevel
      ("_, templ_7745c5c3_Err = templ_7745c5c3_Buffer.WriteString(templ.EscapeString(" ++ vn ++ "))\n")).1
    writeErrorHandler indentLevel g

/-- `writeAttributeKey` from generator.go: constant keys become a literal,
expression keys go through `templ.JoinStringErrs` and are escaped together
with a leading space. -/
def writeAttributeKey (indentLevel : Nat) (attr : AttributeKey) (g : GenState) : GenState :=
  match attr with
  | .ConstantAttributeKey nm =>
    let name := htmlEscapeString nm
    (g.writeStringLiteral indentLevel (" " ++ name)).1
  | .ExpressionAttributeKey e =>
    let gv := g.createVariableName
    let vn := gv.2
    let g := (gv.1.writeIndent indentLevel ("var " ++ vn ++ " string\n")).1
    let g := (g.writeIndent indentLevel (vn ++ ", templ_7745c5c3_Err = templ.JoinStringErrs(")).1
    let gr := g.write e.Value
    let g := gr.1.sourceMapAdd e gr.2
    let g := (g.write ")\n").1
    let g := writeExpressionErrorHandler indentLevel e g
    let g := (g.writeIndent indentLevel
      ("_, templ_7745c5c3_Err = templ_7745c5c3_Buffer.WriteString(templ.EscapeString(` `+" ++ vn ++ "))\n")).1
    writeErrorHandler indentLevel g

/-- `writeBoolConstantAttribute` from generator.go. -/
def writeBoolConstantAttribute (indentLevel : Nat) (key : AttributeKey) (g : GenState) : GenState :=
  writeAttributeKey indentLevel key g

/-- `writeConstantAttribute` from generator.go. -/
def writeConstantAttribute (indentLevel : Nat) (key : AttributeKey) (value : String)
    (singleQuote : Bool) (g : GenState) : GenState :=
  let g := writeAttributeKey indentLevel key g
  let quote := if singleQuote then "\x27" else "\""
  let v := escapeQuotes ("=" ++ quote ++ value ++ quote)
  (g.writeStringLiteral indentLevel v).1

/-- `writeBoolExpressionAttribute` from generator.go. -/
def writeBoolExpressionAttribute (indentLevel : Nat) (key : AttributeKey) (e : Expression)
    (g : GenState) : GenState :=
  let g := (g.writeIndent indentLevel "if ").1
  let gr := g.write e.Value
  let g := gr.1.sourceMapAdd e gr.2
  let g := (g.write " \x7b\n").1
  let g := writeAttributeKey (indentLevel + 1) key g
  (g.writeIndent indentLevel "\x7d\n").1

/-- `writeExpressionAttributeValueURL` from generator.go. -/
def writeExpressionAttributeValueURL (indentLevel : Nat) (e : Expression) (g : GenState) : GenState :=
  let gv := g.createVariableName
  let vn := gv.2
  let g := (gv.1.writeIndent indentLevel ("var " ++ vn ++ " templ.SafeURL\n")).1
  let g := (g.writeIndent indentLevel (vn ++ ", templ_7745c5c3_Err = templ.JoinURLErrs(")).1
  let gr := g.write e.Value
  let g := gr.1.sourceMapAdd e gr.2
  let g := (g.write ")\n").1
  let g := writeExpressionErrorHandler indentLevel e g
  let g := (g.writeIndent indentLevel
    ("_, templ_7745c5c3_Err = templ_7745c5c3_Buffer.WriteString(templ.EscapeString(" ++ vn ++ "))\n")).1
  writeErrorHandler indentLevel g

/-- `writeExpressionAttributeValueScript` from generator.go: declare a
typed `templ.ComponentScript` variable and write its `Call` field without
escaping. -/
def writeExpressionAttributeValueScript (indentLevel : Nat) (e : Expression) (g : GenState) : GenState :=
  let gv := g.createVariableName
  let vn := gv.2
  let g := (gv.1.writeIndent indentLevel ("var " ++ vn ++ " templ.ComponentScript = ")).1
  let gr := g.write e.Value
  let g := gr.1.sourceMapAdd e gr.2
  let g := (g.write "\n").1
  let g := (g.writeIndent indentLevel
    ("_, templ_7745c5c3_Err = templ_7745c5c3_Buffer.WriteString(" ++ vn ++ ".Call)\n")).1
  writeErrorHandler indentLevel g

/-- `writeExpressionAttributeValueDefault` from generator.go. -/
def writeExpressionAttributeValueDefault (indentLevel : Nat) (e : Expression) (g : GenState) : GenState :=
  let gv := g.createVariableName
  let vn := gv.2
  let g := (gv.1.writeIndent indentLevel ("var " ++ vn ++ " string\n")).1
  let g := (g.writeIndent indentLevel (vn ++ ", templ_7745c5c3_Err = templ.JoinStringErrs(")).1
  let gr := g.write e.Value
  let g := gr.1.sourceMapAdd e gr.2
  let g := (g.write ")\n").1
  let g := writeExpressionErrorHandler indentLevel e g
  let g := (g.writeIndent indentLevel
    ("_, templ_7745c5c3_Err = templ_7745c5c3_Buffer.WriteString(templ.EscapeString(" ++ vn ++ "))\n")).1
  writeErrorHandler indentLevel g

/-- `writeExpressionAttributeValueStyle` from generator.go. -/
def writeExpressionAttributeValueStyle (indentLevel : Nat) (e : Expression) (g : GenState) : GenState :=
  let gv := g.createVariableName
  let vn := gv.2
  let g := (gv.1.writeIndent indentLevel ("var " ++ vn ++ " string\n")).1
  let g := (g.writeIndent indentLevel (vn ++ ", templ_7745c5c3_Err = templruntime.SanitizeStyleAttributeValues(")).1
  let gr := g.write e.Value
  let g := gr.1.sourceMapAdd e gr.2
  let g := (g.write ")\n").1
  let g := writeExpressionErrorHandler indentLevel e g
  let g := (g.writeIndent indentLevel
    ("_, templ_7745c5c3_Err = templ_7745c5c3_Buffer.WriteString(templ.EscapeString(" ++ vn ++ "))\n")).1
  writeErrorHandler indentLevel g

/-- `writeExpressionAttribute` from generator.go: key, `=\"`, the value in
its context (URL / script handler / style / default), closing `\"`. -/
def writeExpressionAttribute (indentLevel : Nat) (elementName : String) (key : AttributeKey)
    (e : Expression) (g : GenState) : GenState :=
  let g := writeAttributeKey indentLevel key g
  let g := (g.writeStringLiteral indentLevel "=\\\"").1
  let attrKey := htmlEscapeString key.keyString
  let g :=
    if isExpressionAttributeValueURL elementName attrKey then
      writeExpressionAttributeValueURL indentLevel e g
    else if isScriptAttribute attrKey then
      writeExpressionAttributeValueScript indentLevel e g
    else if attrKey == "style" then
      writeExpressionAttributeValueStyle indentLevel e g
    else
      writeExpressionAttributeValueDefault indentLevel e g
  (g.writeStringLiteral indentLevel "\\\"").1

/-- `writeSpreadAttributes` from generator.go. -/
def writeSpreadAttributes (indentLevel : Nat) (e : Expression) (g : GenState) : GenState :=
  let g := (g.writeIndent indentLevel "templ_7745c5c3_Err = templ.RenderAttributes(ctx, templ_7745c5c3_Buffer, ").1
  let gr := g.write e.Value
  let g := gr.1.sourceMapAdd e gr.2
  let g := (g.write ")\n").1
  writeErrorHandler indentLevel g

mutual

/-- `writeElementAttributes` from generator.go: dispatch per attribute
variant, in order. -/
def writeElementAttributes (indentLevel : Nat) (name : String) (attrs : List Attribute)
    (g : GenState) : GenState :=
  match attrs with
  | [] => g
  | attr :: rest =>
    let g :=
      match attr with
      | .BoolConstantAttribute key => writeBoolConstantAttribute indentLevel key g
      | .ConstantAttribute key value sq => writeConstantAttribute indentLevel key value sq g
      | .BoolExpressionAttribute key e => writeBoolExpressionAttribute indentLevel key e g
      | .ExpressionAttribute key e => writeExpressionAttribute indentLevel name key e g
      | .SpreadAttributes e => writeSpreadAttributes indentLevel e g
      | .ConditionalAttribute e ta fa => writeConditionalAttribute indentLevel name e ta fa g
    writeElementAttributes indentLevel name rest g
termination_by 2 * sizeOf attrs

/-- `writeConditionalAttribute` from generator.go. -/
def writeConditionalAttribute (indentLevel : Nat) (elementName : String) (e : Expression)
    (thenAttrs elseAttrs : List Attribute) (g : GenState) : GenState :=
  let g := (g.writeIndent indentLevel "if ").1
  let gr := g.write e.Value
  let g := gr.1.sourceMapAdd e gr.2
  let g := (g.write " \x7b\n").1
  let g := writeElementAttributes (indentLevel + 1) elementName thenAttrs g
  let g :=
    if elseAttrs.length > 0 then
      let g := (g.writeIndent indentLevel "\x7d else \x7b\n").1
      writeElementAttributes (indentLevel + 1) elementName elseAttrs g
    else g
  (g.writeIndent indentLevel "\x7d\n").1
termination_by 2 * (sizeOf thenAttrs + sizeOf elseAttrs) + 1

end

/-- `writeAttributeCSS` from generator.go: a `class` expression attribute
becomes a fresh `[]any` variable rendered through `templ.RenderCSSItems`,
and the attribute is rewritten to read the classes from that variable. -/
def writeAttributeCSS (indentLevel : Nat) (key : AttributeKey) (e : Expression)
    (g : GenState) : GenState × Option (AttributeKey × Expression) :=
  let name := htmlEscapeString key.keyString
  if name != "class" then (g, none)
  else
    let gv := g.createVariableName
    let classesName := gv.2
    let g := (gv.1.writeIndent indentLevel ("var " ++ classesName ++ " = []any\x7b")).1
    let gr := g.write e.Value
    let g := gr.1.sourceMapAdd e gr.2
    let g := (g.write "\x7d\n").1
    let g := (g.writeIndent indentLevel
      ("templ_7745c5c3_Err = templ.RenderCSSItems(ctx, templ_7745c5c3_Buffer, " ++ classesName ++ "...)\n")).1
    let g := writeErrorHandler indentLevel g
    (g, some (key, ⟨"templ.CSSClasses(" ++ classesName ++ ").String()", ⟨⟨0, 0, 0⟩, ⟨0, 0, 0⟩⟩⟩))

/-- `writeAttributesCSS` from generator.go: walk the attribute list,
replacing rewritten `class` attributes and recursing into conditional
branches (the in-place Go slice mutation becomes a returned list). -/
def writeAttributesCSS (indentLevel : Nat) (attrs : List Attribute) (g : GenState) :
    GenState × List Attribute :=
  match attrs with
  | [] => (g, [])
  | attr :: rest =>
    let ga :=
      match attr with
      | .ExpressionAttribute key e =>
        let gr := writeAttributeCSS indentLevel key e g
        match gr.2 with
        | some ke => (gr.1, Attribute.ExpressionAttribute ke.1 ke.2)
        | none => (gr.1, Attribute.ExpressionAttribute key e)
      | .ConditionalAttribute e ta fa =>
        let gt := writeAttributesCSS indentLevel ta g
        let gf := writeAttributesCSS indentLevel fa gt.1
        (gf.1, Attribute.ConditionalAttribute e gt.2 gf.2)
      | other => (g, other)
    let grest := writeAttributesCSS indentLevel rest ga.1
    (grest.1, ga.2 :: grest.2)

/-- `writeElementCSS` from generator.go. -/
def writeElementCSS (indentLevel : Nat) (attrs : List Attribute) (g : GenState) :
    GenState × List Attribute :=
  writeAttributesCSS indentLevel attrs g

mutual

/-- `getAttributeScripts` from generator.go. -/
def getAttributeScripts : Attribute → List String
  | .ConditionalAttribute _ ta fa => getAttributeScriptsList ta ++ getAttributeScriptsList fa
  | .ExpressionAttribute key e =>
    if isScriptAttribute (htmlEscapeString key.keyString) then [e.Value] else []
  | _ => []

/-- The per-attribute collection loop of `writeElementScript`. -/
def getAttributeScriptsList : List Attribute → List String
  | [] => []
  | a :: rest => getAttributeScripts a ++ getAttributeScriptsList rest

end

/-- `writeElementScript` from generator.go. -/
def writeElementScript (indentLevel : Nat) (attrs : List Attribute) (g : GenState) : GenState :=
  let scriptExpressions := getAttributeScriptsList attrs
  if scriptExpressions.length == 0 then g
  else
    let g := (g.writeIndent indentLevel
      ("templ_7745c5c3_Err = templ.RenderScriptItems(ctx, templ_7745c5c3_Buffer, " ++
       String.intercalate ", " scriptExpressions ++ ")\n")).1
    writeErrorHandler indentLevel g

/-- `writeRawElement` from generator.go: open tag (with scripts and
attributes when present), the contents as a single text literal, closing
tag. -/
def writeRawElement (indentLevel : Nat) (name : String) (attributes : List Attribute)
    (contents : String) (g : GenState) : GenState :=
  let g :=
    if attributes.length == 0 then
      (g.writeStringLiteral indentLevel ("<" ++ htmlEscapeString name ++ ">")).1
    else
      let g := writeElementScript indentLevel attributes g
      let g := (g.writeStringLiteral indentLevel ("<" ++ htmlEscapeString name)).1
      let g := writeElementAttributes indentLevel name attributes g
      (g.writeStringLiteral indentLevel ">").1
  let g := writeText indentLevel contents g
  (g.writeStringLiteral indentLevel ("</" ++ htmlEscapeString name ++ ">")).1

/-- `writeScriptContents` from generator.go. -/
def writeScriptContents (indentLevel : Nat) (c : ScriptContents) (g : GenState) : GenState :=
  match c with
  | .value s => if s == "" then g else writeText indentLevel s g
  | .goCode e trailing inside =>
    let gv := g.createVariableName
    let vn := gv.2
    let fnCall :=
      if inside then "templruntime.ScriptContentInsideStringLiteral"
      else "templruntime.ScriptContentOutsideStringLiteral"
    let g := (gv.1.writeIndent indentLevel (vn ++ ", templ_7745c5c3_Err := " ++ fnCall ++ "(")).1
    let gr := g.write e.Value
    let g := gr.1.sourceMapAdd e gr.2
    let g := (g.write ")\n").1
    let g := writeExpressionErrorHandler indentLevel e g
    let g := (g.writeIndent indentLevel
      ("_, templ_7745c5c3_Err = templ_7745c5c3_Buffer.WriteString(" ++ vn ++ ")\n")).1
    let g := writeErrorHandler indentLevel g
    if trailing.str != "" then writeText indentLevel trailing.str g else g

/-- `writeScriptElement` from generator.go. -/
def writeScriptElement (indentLevel : Nat) (attributes : List Attribute)
    (contents : List ScriptContents) (g : GenState) : GenState :=
  let g :=
    if attributes.length == 0 then
      (g.writeStringLiteral indentLevel "<script>").1
    else
      let g := writeElementScript indentLevel attributes g
      let g := (g.writeStringLiteral indentLevel "<script").1
      let g := writeElementAttributes indentLevel "script" attributes g
      (g.writeStringLiteral indentLevel ">").1
  let g := contents.foldl (fun g c => writeScriptContents indentLevel c g) g
  (g.writeStringLiteral indentLevel "</script>").1

/-- `writeSelfClosingTemplElementExpression` from generator.go. -/
def writeSelfClosingTemplElementExpression (indentLevel : Nat) (e : Expression)
    (g : GenState) : GenState :=
  let g := (g.writeIndent indentLevel "templ_7745c5c3_Err = ").1
  let gr := g.write e.Value
  let g := gr.1.sourceMapAdd e gr.2
  let g := (g.write ".Render(ctx, templ_7745c5c3_Buffer)\n").1
  writeErrorHandler indentLevel g

/-- `writeCallTemplateExpression` from generator.go. -/
def writeCallTemplateExpression (indentLevel : Nat) (e : Expression) (g : GenState) : GenState :=
  let g := (g.writeIndent indentLevel "templ_7745c5c3_Err = ").1
  let gr := g.write e.Value
  let g := gr.1.sourceMapAdd e gr.2
  let g := (g.write ".Render(ctx, templ_7745c5c3_Buffer)\n").1
  writeErrorHandler indentLevel g

/-- `writeTemplBuffer` from generator.go. -/
def writeTemplBuffer (indentLevel : Nat) (g : GenState) : GenState :=
  let g := (g.writeIndent indentLevel "templ_7745c5c3_Buffer, templ_7745c5c3_IsBuffer := templruntime.GetBuffer(templ_7745c5c3_W)\n").1
  let g := (g.writeIndent indentLevel "if !templ_7745c5c3_IsBuffer \x7b\n").1
  let g := (g.writeIndent (indentLevel + 1) "defer func() \x7b\n").1
  let g := (g.writeIndent (indentLevel + 2) "templ_7745c5c3_BufErr := templruntime.ReleaseBuffer(templ_7745c5c3_Buffer)\n").1
  let g := (g.writeIndent (indentLevel + 2) "if templ_7745c5c3_Err == nil \x7b\n").1
  let g := (g.writeIndent (indentLevel + 3) "templ_7745c5c3_Err = templ_7745c5c3_BufErr\n").1
  let g := (g.writeIndent (indentLevel + 2) "\x7d\n").1
  let g := (g.writeIndent (indentLevel + 1) "\x7d()\n").1
  (g.writeIndent indentLevel "\x7d\n").1

/-- The open-tag portion of `writeElement` from generator.go (everything up
to and including the `>` of the open tag: pre-element CSS and script
handling, `<name`, attributes, `>`; `parser.CopyAttributes` is the
identity in this persistent model). -/
def writeElementOpen (indentLevel : Nat) (name : String) (attributes : List Attribute)
    (g : GenState) : GenState :=
  if attributes.length == 0 then
    (g.writeStringLiteral indentLevel ("<" ++ htmlEscapeString name ++ ">")).1
  else
    let ga := writeElementCSS indentLevel attributes g
    let g := writeElementScript indentLevel ga.2 ga.1
    let g := (g.writeStringLiteral indentLevel ("<" ++ htmlEscapeString name)).1
    let g := writeElementAttributes indentLevel name ga.2 g
    (g.writeStringLiteral indentLevel ">").1

mutual

/-- `writeNodes` from generator.go: each node is written with its successor
(or the inherited `next`) as context. -/
def writeNodes (indentLevel : Nat) (nodes : List Node) (next : Option Node) (g : GenState) : GenState :=
  match nodes with
  | [] => g
  | curr :: rest =>
    let nextNode :=
      match rest with
      | m :: _ => some m
      | [] => next
    writeNodes indentLevel rest next (writeNode indentLevel curr nextNode g)
termination_by 16 * sizeOf nodes

/-- The dispatch switch of `writeNode` from generator.go. -/
def writeNodeDispatch (indentLevel : Nat) (current : Node) (next : Option Node) (g : GenState) : GenState :=
  match current with
  | .DocType v => writeDocType indentLevel v g
  | .Element name attrs children _ => writeElement indentLevel name attrs children g
  | .HTMLComment c => writeComment indentLevel c g
  | .ChildrenExpression => writeChildrenExpression indentLevel g
  | .RawElement name attrs contents => writeRawElement indentLevel name attrs contents g
  | .ScriptElement attrs contents => writeScriptElement indentLevel attrs contents g
  | .ForExpression e children => writeForExpression indentLevel e children next g
  | .CallTemplateExpression e => writeCallTemplateExpression indentLevel e g
  | .TemplElementExpression e children => writeTemplElementExpression indentLevel e children g
  | .IfExpression e t elifs els => writeIfExpression indentLevel e t elifs els next g
  | .SwitchExpression e cs => writeSwitchExpression indentLevel e cs next g
  | .StringExpression e _ => writeStringExpression indentLevel e g
  | .GoCode e _ => writeGoCode indentLevel e g
  | .Whitespace v => writeWhitespace indentLevel v g
  | .Text v _ => writeText indentLevel v g
  | .GoComment _ => g
termination_by 16 * sizeOf current + 5

/-- `writeNode` from generator.go: dispatch on the node kind, then emit the
normalized trailing space when the node carries a marker and both the node
and its successor are inline-or-text. -/
def writeNode (indentLevel : Nat) (current : Node) (next : Option Node) (g : GenState) : GenState :=
  let g := writeNodeDispatch indentLevel current next g
  let needed := isInlineOrText (some current) && isInlineOrText next
  match nodeTrailing current with
  | some ws => if needed then writeWhitespaceTrailer indentLevel ws g else g
  | none => g
termination_by 16 * sizeOf current + 6

/-- `writeElement` from generator.go: the open tag, then — except for void
elements with no children — the whitespace-stripped children and the
closing tag. -/
def writeElement (indentLevel : Nat) (name : String) (attributes : List Attribute)
    (children : List Node) (g : GenState) : GenState :=
  let g := writeElementOpen indentLevel name attributes g
  if isVoidElement name && children.length == 0 then g
  else
    let g := writeNodes indentLevel (stripWhitespace children) none g
    (g.writeStringLiteral indentLevel ("</" ++ htmlEscapeString name ++ ">")).1
termination_by 16 * sizeOf children + 3
decreasing_by
  all_goals (have h1 := sizeOf_stripWhitespace_le children; omega)

/-- `writeIfExpression` from generator.go. -/
def writeIfExpression (indentLevel : Nat) (e : Expression) (thenNodes : List Node)
    (elseIfs : List (Expression × List Node)) (elseNodes : List Node)
    (nextNode : Option Node) (g : GenState) : GenState :=
  let g := (g.writeIndent indentLevel "if ").1
  let gr := g.write e.Value
  let g := gr.1.sourceMapAdd e gr.2
  let g := (g.write " \x7b\n").1
  let g := writeNodes (indentLevel + 1) (stripLeadingAndTrailingWhitespace thenNodes) nextNode g
  let g := writeElseIfs indentLevel elseIfs nextNode g
  let g :=
    if elseNodes.length > 0 then
      let g := (g.writeIndent indentLevel "\x7d else \x7b\n").1
      writeNodes (indentLevel + 1) (stripLeadingAndTrailingWhitespace elseNodes) nextNode g
    else g
  (g.writeIndent indentLevel "\x7d\n").1
termination_by 16 * (sizeOf thenNodes + sizeOf elseIfs + sizeOf elseNodes) + 3
decreasing_by
  all_goals
    (have h1 := sizeOf_stripLeadingAndTrailingWhitespace_le thenNodes
     have h2 := sizeOf_stripLeadingAndTrailingWhitespace_le elseNodes
     have h3 := one_le_sizeOf_list thenNodes
     have h4 := one_le_sizeOf_list elseNodes
     omega)

/-- The else-if loop of `writeIfExpression` from generator.go. -/
def writeElseIfs (indentLevel : Nat) (elseIfs : List (Expression × List Node))
    (nextNode : Option Node) (g : GenState) : GenState :=
  match elseIfs with
  | [] => g
  | (e, body) :: rest =>
    let g := (g.writeIndent indentLevel "\x7d else if ").1
    let gr := g.write e.Value
    let g := gr.1.sourceMapAdd e gr.2
    let g := (g.write " \x7b\n").1
    let g := writeNodes (indentLevel + 1) (stripLeadingAndTrailingWhitespace body) nextNode g
    writeElseIfs indentLevel rest nextNode g
termination_by 16 * sizeOf elseIfs + 2
decreasing_by
  all_goals
    (have h1 := sizeOf_stripLeadingAndTrailingWhitespace_le body
     try simp only [List.cons.sizeOf_spec, Prod.mk.sizeOf_spec]
     omega)

/-- `writeSwitchExpression` from generator.go. -/
def writeSwitchExpression (indentLevel : Nat) (e : Expression)
    (cs : List (Expression × List Node)) (next : Option Node) (g : GenState) : GenState :=
  let g := (g.writeIndent indentLevel "switch ").1
  let gr := g.write e.Value
  let g := gr.1.sourceMapAdd e gr.2
  let g := (g.write " \x7b\n").1
  let g := writeSwitchCases indentLevel cs next g
  (g.writeIndent indentLevel "\x7d\n").1
termination_by 16 * sizeOf cs + 3

/-- The case loop of `writeSwitchExpression` from generator.go. -/
def writeSwitchCases (indentLevel : Nat) (cs : List (Expression × List Node))
    (next : Option Node) (g : GenState) : GenState :=
  match cs with
  | [] => g
  | c :: rest =>
    let gr := g.writeIndent indentLevel c.1.Value
    let g := gr.1.sourceMapAdd c.1 gr.2
    let g := writeNodes (indentLevel + 1) (stripLeadingAndTrailingWhitespace c.2) next g
    writeSwitchCases indentLevel rest next g
termination_by 16 * sizeOf cs + 2
decreasing_by
  all_goals
    (have h1 := sizeOf_stripLeadingAndTrailingWhitespace_le c.2
     have h2 := sizeOf_snd_lt c
     try simp only [List.cons.sizeOf_spec, Prod.mk.sizeOf_spec]
     omega)

/-- `writeForExpression` from generator.go. -/
def writeForExpression (indentLevel : Nat) (e : Expression) (children : List Node)
    (next : Option Node) (g : GenState) : GenState :=
  let g := (g.writeIndent indentLevel "for ").1
  let gr := g.write e.Value
  let g := gr.1.sourceMapAdd e gr.2
  let g := (g.write " \x7b\n").1
  let g := writeNodes (indentLevel + 1) (stripLeadingAndTrailingWhitespace children) next g
  (g.writeIndent indentLevel "\x7d\n").1
termination_by 16 * sizeOf children + 3
decreasing_by
  all_goals (have h1 := sizeOf_stripLeadingAndTrailingWhitespace_le children; omega)

/-- `writeTemplElementExpression` from generator.go: no children means a
direct render call, otherwise a nested children component. -/
def writeTemplElementExpression (indentLevel : Nat) (e : Expression) (children : List Node)
    (g : GenState) : GenState :=
  if children.length == 0 then writeSelfClosingTemplElementExpression indentLevel e g
  else writeBlockTemplElementExpression indentLevel e children g
termination_by 16 * sizeOf children + 4

/-- `writeBlockTemplElementExpression` from generator.go. -/
def writeBlockTemplElementExpression (indentLevel : Nat) (e : Expression) (children : List Node)
    (g : GenState) : GenState :=
  let gv := g.createVariableName
  let childrenName := gv.2
  let g := (gv.1.writeIndent indentLevel (childrenName ++ " := templruntime.GeneratedTemplate(func(templ_7745c5c3_Input templruntime.GeneratedComponentInput) (templ_7745c5c3_Err error) \x7b\n")).1
  let g := (g.writeIndent (indentLevel + 1) "templ_7745c5c3_W, ctx := templ_7745c5c3_Input.Writer, templ_7745c5c3_Input.Context\n").1
  let g := writeTemplBuffer (indentLevel + 1) g
  let g := (g.writeIndent (indentLevel + 1) "ctx = templ.InitializeContext(ctx)\n").1
  let g := writeNodes (indentLevel + 1) (stripLeadingAndTrailingWhitespace children) none g
  let g := (g.writeIndent (indentLevel + 1) "return nil\n").1
  let g := (g.writeIndent indentLevel "\x7d)\n").1
  let g := (g.writeIndent indentLevel "templ_7745c5c3_Err = ").1
  let gr := g.write e.Value
  let g := gr.1.sourceMapAdd e gr.2
  let g := (g.write (".Render(templ.WithChildren(ctx, " ++ childrenName ++ "), templ_7745c5c3_Buffer)\n")).1
  writeErrorHandler indentLevel g
termination_by 16 * sizeOf children + 3
decreasing_by
  all_goals (have h1 := sizeOf_stripLeadingAndTrailingWhitespace_le children; omega)

end

namespace SHA256

/-! Modelled from Go `crypto/sha256` (standard library, used by
`functionName`): a straightforward SHA-256 over naturals reduced mod 2^32,
validated against the standard test vectors. -/

def u32 (n : Nat) : Nat := n % 4294967296

def rotr (x n : Nat) : Nat := u32 ((x >>> n) ||| (x <<< (32 - n)))

def kConsts : Array Nat := #[
  1116352408, 1899447441, 3049323471, 3921009573, 961987163, 1508970993,
  2453635748, 2870763221, 3624381080, 310598401, 607225278, 1426881987,
  1925078388, 2162078206, 2614888103, 3248222580, 3835390401, 4022224774,
  264347078, 604807628, 770255983, 1249150122, 1555081692, 1996064986,
  2554220882, 2821834349, 2952996808, 3210313671, 3336571891, 3584528711,
  113926993, 338241895, 666307205, 773529912, 1294757372, 1396182291,
  1695183700, 1986661051, 2177026350, 2456956037, 2730485921, 2820302411,
  3259730800, 3345764771, 3516065817, 3600352804, 4094571909, 275423344,
  430227734, 506948616, 659060556, 883997877, 958139571, 1322822218,
  1537002063, 1747873779, 1955562222, 2024104815, 2227730452, 2361852424,
  2428436474, 2756734187, 3204031479, 3329325298]

def encodeCharUTF8 (c : Char) : List Nat :=
  let n := c.toNat
  if n < 0x80 then [n]
  else if n < 0x800 then [0xC0 ||| (n >>> 6), 0x80 ||| (n &&& 0x3F)]
  else if n < 0x10000 then
    [0xE0 ||| (n >>> 12), 0x80 ||| ((n >>> 6) &&& 0x3F), 0x80 ||| (n &&& 0x3F)]
  else
    [0xF0 ||| (n >>> 18), 0x80 ||| ((n >>> 12) &&& 0x3F), 0x80 ||| ((n >>> 6) &&& 0x3F),
     0x80 ||| (n &&& 0x3F)]

def utf8Bytes (s : String) : List Nat :=
  s.data.flatMap encodeCharUTF8

def padMessage (msg : List Nat) : List Nat :=
  let bitLen := 8 * msg.length
  let withOne := msg ++ [0x80]
  let zeros := (64 - (withOne.length + 8) % 64) % 64
  let lenBytes := (List.range 8).map (fun i => (bitLen >>> (8 * (7 - i))) &&& 0xFF)
  withOne ++ List.replicate zeros 0 ++ lenBytes

def chunkify (bs : List Nat) : List (List Nat) :=
  match bs with
  | [] => []
  | b :: rest => ((b :: rest).take 64) :: chunkify ((b :: rest).drop 64)
termination_by bs.length
decreasing_by
  simp only [List.length_drop, List.length_cons]
  omega

def wordsOf (chunk : List Nat) : Array Nat :=
  ((List.range 16).map (fun i =>
    ((chunk.getD (4 * i) 0) <<< 24) ||| ((chunk.getD (4 * i + 1) 0) <<< 16) |||
    ((chunk.getD (4 * i + 2) 0) <<< 8) ||| (chunk.getD (4 * i + 3) 0))).toArray

def extendSchedule (w0 : Array Nat) : Array Nat := Id.run do
  let mut w := w0
  for i in [16:64] do
    let x15 := w[i - 15]!
    let x2 := w[i - 2]!
    let s0 := (rotr x15 7) ^^^ (rotr x15 18) ^^^ (x15 >>> 3)
    let s1 := (rotr x2 17) ^^^ (rotr x2 19) ^^^ (x2 >>> 10)
    w := w.push (u32 (w[i - 16]! + s0 + w[i - 7]! + s1))
  return w

def compressChunk (h : Array Nat) (chunk : List Nat) : Array Nat := Id.run do
  let w := extendSchedule (wordsOf chunk)
  let mut a := h[0]!
  let mut b := h[1]!
  let mut c := h[2]!
  let mut d := h[3]!
  let mut e := h[4]!
  let mut f := h[5]!
  let mut gg := h[6]!
  let mut hh := h[7]!
  for i in [0:64] do
    let s1 := (rotr e 6) ^^^ (rotr e 11) ^^^ (rotr e 25)
    let ch := (e &&& f) ^^^ ((0xFFFFFFFF ^^^ e) &&& gg)
    let temp1 := u32 (hh + s1 + ch + kConsts[i]! + w[i]!)
    let s0 := (rotr a 2) ^^^ (rotr a 13) ^^^ (rotr a 22)
    let maj := (a &&& b) ^^^ (a &&& c) ^^^ (b &&& c)
    let temp2 := u32 (s0 + maj)
    hh := gg
    gg := f
    f := e
    e := u32 (d + temp1)
    d := c
    c := b
    b := a
    a := u32 (temp1 + temp2)
  return #[u32 (h[0]! + a), u32 (h[1]! + b), u32 (h[2]! + c), u32 (h[3]! + d),
           u32 (h[4]! + e), u32 (h[5]! + f), u32 (h[6]! + gg), u32 (h[7]! + hh)]

def hexDigitChar (n : Nat) : Char :=
  if n < 10 then Char.ofNat (48 + n) else Char.ofNat (87 + n)

def toHex8 (n : Nat) : String :=
  String.mk ((List.range 8).map (fun i => hexDigitChar ((n >>> (4 * (7 - i))) &&& 0xF)))

def sha256hex (s : String) : String :=
  let chunks := chunkify (padMessage (utf8Bytes s))
  let h0 : Array Nat := #[1779033703, 3144134277, 1013904242, 2773480762,
                          1359893119, 2600822924, 528734635, 1541459225]
  let hFinal := chunks.foldl compressChunk h0
  String.join (hFinal.toList.map toHex8)

end SHA256

/-- `functionName` from generator.go: `__templ_<name>_<first 4 hex chars of
the SHA-256 of the body>`. -/
def functionName (name : String) (body : String) : String :=
  "__templ_" ++ name ++ "_" ++ (SHA256.sha256hex body).take 4

/-- `writeGoExpression` from generator.go (used for header blocks and
top-level pass-through nodes): the expression text, the source-map entry,
then either a single newline (when the last line is a `//` comment — in
that case no symbol range is recorded) or a blank line plus a symbol
range. -/
def writeGoExpression (n : Expression) (g : GenState) : GenState :=
  let gr := g.write n.Value
  let tgtFrom := gr.2.From
  let g := gr.1.sourceMapAdd n gr.2
  let v := n.Value
  let lineSlice := splitOnChar '\n' v.data
  let lastLine := lineSlice.getLast?.getD []
  if startsWithSlashSlash lastLine then
    (g.writeIndent 0 "\n").1
  else
    let gr2 := g.writeIndent 0 "\n\n"
    gr2.1.addSymbolRange n.ExprRange ⟨tgtFrom, gr2.2.To⟩

/-- The property loop of `writeCSS` from generator.go. -/
def writeCSSProperties (indentLevel : Nat) (props : List CSSProperty) (g : GenState) : GenState :=
  match props with
  | [] => g
  | p :: rest =>
    let g :=
      match p with
      | .ConstantCSSProperty name value =>
        (g.writeIndent indentLevel
          ("templ_7745c5c3_CSSBuilder.WriteString(" ++
           createGoString (constantCSSPropertyString name value) ++ ")\n")).1
      | .ExpressionCSSProperty name value =>
        let g := (g.writeIndent indentLevel
          ("templ_7745c5c3_CSSBuilder.WriteString(string(templ.SanitizeCSS(`" ++ name ++ "`, ")).1
        let gr := g.write value.Value
        let g := gr.1.sourceMapAdd value gr.2
        (g.write ")))\n").1
    writeCSSProperties indentLevel rest g

/-- `writeCSS` from generator.go. -/
def writeCSS (n : CSSTemplate) (g : GenState) : GenState :=
  let gr := g.write "func "
  let tgtFrom := gr.2.From
  let gr2 := gr.1.write n.Expr.Value
  let g := gr2.1.sourceMapAdd n.Expr gr2.2
  let g := (g.write " templ.CSSClass \x7b\n").1
  let g := (g.writeIndent 1 "templ_7745c5c3_CSSBuilder := templruntime.GetBuilder()\n").1
  let g := writeCSSProperties 1 n.Properties g
  let g := (g.writeIndent 1
    ("templ_7745c5c3_CSSID := templ.CSSID(`" ++ n.Name ++ "`, templ_7745c5c3_CSSBuilder.String())\n")).1
  let g := (g.writeIndent 1 "return templ.ComponentCSSClass\x7b\n").1
  let g := (g.writeIndent 2 "ID: templ_7745c5c3_CSSID,\n").1
  let g := (g.writeIndent 2 "Class: templ.SafeCSS(`.` + templ_7745c5c3_CSSID + `\x7b` + templ_7745c5c3_CSSBuilder.String() + `\x7d`),\n").1
  let g := (g.writeIndent 1 "\x7d\n").1
  let gr3 := g.writeIndent 0 "\x7d\n\n"
  gr3.1.addSymbolRange n.CRange ⟨tgtFrom, gr3.2.To⟩

/-- `writeTemplate` from generator.go (the `nodeIdx` parameter steers the
final-node special case of the closing brace). -/
def writeTemplate (nodeIdx : Nat) (t : HTMLTemplate) (g : GenState) : GenState :=
  let gr := g.write "func "
  let tgtFrom := gr.2.From
  let gr2 := gr.1.write t.Expr.Value
  let g := gr2.1.sourceMapAdd t.Expr gr2.2
  let g := (g.write " templ.Component \x7b\n").1
  let g := (g.writeIndent 1 "return templruntime.GeneratedTemplate(func(templ_7745c5c3_Input templruntime.GeneratedComponentInput) (templ_7745c5c3_Err error) \x7b\n").1
  let g := (g.writeIndent 2 "templ_7745c5c3_W, ctx := templ_7745c5c3_Input.Writer, templ_7745c5c3_Input.Context\n").1
  let g := (g.writeIndent 2 "if templ_7745c5c3_CtxErr := ctx.Err(); templ_7745c5c3_CtxErr != nil \x7b\n").1
  let g := (g.writeIndent 3 "return templ_7745c5c3_CtxErr").1
  let g := (g.writeIndent 2 "\x7d\n").1
  let g := writeTemplBuffer 2 g
  let g := (g.writeIndent 2 "ctx = templ.InitializeContext(ctx)\n").1
  let gv := g.createVariableName
  let g := { gv.1 with childrenVar := gv.2 }
  let g := (g.writeIndent 2 (g.childrenVar ++ " := templ.GetChildren(ctx)\n")).1
  let g := (g.writeIndent 2 ("if " ++ g.childrenVar ++ " == nil \x7b\n")).1
  let g := (g.writeIndent 3 (g.childrenVar ++ " = templ.NopComponent\n")).1
  let g := (g.writeIndent 2 "\x7d\n").1
  let g := (g.writeIndent 2 "ctx = templ.ClearChildren(ctx)\n").1
  let g := writeNodes 2 (stripWhitespace t.Children) none g
  let g := (g.writeIndent 2 "return nil\n").1
  let g := (g.writeIndent 1 "\x7d)\n").1
  let closingBrace := if nodeIdx + 1 ≥ g.tf.Nodes.length then "\x7d\n" else "\x7d\n\n"
  let gr3 := g.writeIndent 0 closingBrace
  gr3.1.addSymbolRange t.TRange ⟨tgtFrom, gr3.2.To⟩

/-- `writeScript` from generator.go. -/
def writeScript (t : ScriptTemplate) (g : GenState) : GenState :=
  let gr := g.write "func "
  let tgtFrom := gr.2.From
  let gr2 := gr.1.write t.Name.Value
  let g := gr2.1.sourceMapAdd t.Name gr2.2
  let g := (g.write "(").1
  let gr3 := g.write t.Parameters.Value
  let g := gr3.1.sourceMapAdd t.Parameters gr3.2
  let g := (g.write ") templ.ComponentScript \x7b\n").1
  let g := (g.writeIndent 1 "return templ.ComponentScript\x7b\n").1
  let fn := functionName t.Name.Value t.Value
  let goFn := createGoString fn
  let g := (g.writeIndent 2 ("Name: " ++ goFn ++ ",\n")).1
  let prefixStr := "function " ++ fn ++ "(" ++ stripTypes t.Parameters.Value ++ ")\x7b"
  let body := String.mk (t.Value.data.dropWhile goIsSpace)
  let suffixStr := "\x7d"
  let g := (g.writeIndent 2
    ("Function: " ++ createGoString (prefixStr ++ body ++ suffixStr) ++ ",\n")).1
  let g := (g.writeIndent 2
    ("Call: templ.SafeScript(" ++ goFn ++ ", " ++ stripTypes t.Parameters.Value ++ "),\n")).1
  let g := (g.writeIndent 2
    ("CallInline: templ.SafeScriptInline(" ++ goFn ++ ", " ++ stripTypes t.Parameters.Value ++ "),\n")).1
  let g := (g.writeIndent 1 "\x7d\n").1
  let gr4 := g.writeIndent 0 "\x7d\n\n"
  gr4.1.addSymbolRange t.SRange ⟨tgtFrom, gr4.2.To⟩

/-- `writeCodeGeneratedComment` from generator.go. -/
def writeCodeGeneratedComment (g : GenState) : GenState :=
  if g.options.SkipCodeGeneratedComment then (g.write "//\n\n").1
  else (g.write "// Code generated by templ - DO NOT EDIT.\n\n").1

/-- `writeVersionComment` from generator.go. -/
def writeVersionComment (g : GenState) : GenState :=
  if g.options.Version ≠ "" then
    (g.write ("// templ: version: " ++ g.options.Version ++ "\n")).1
  else g

/-- `writeGeneratedDateComment` from generator.go. -/
def writeGeneratedDateComment (g : GenState) : GenState :=
  if g.options.GeneratedDate ≠ "" then
    (g.write ("// templ: generated: " ++ g.options.GeneratedDate ++ "\n")).1
  else g

/-- The header loop of `writeHeader` from generator.go. -/
def writeHeaderList : List Expression → GenState → GenState
  | [], g => g
  | n :: rest, g => writeHeaderList rest (writeGoExpression n g)

/-- `writeHeader` from generator.go. -/
def writeHeader (g : GenState) : GenState :=
  if g.tf.Header.length == 0 then g
  else writeHeaderList g.tf.Header g

/-- `writePackage` from generator.go. -/
def writePackage (g : GenState) : GenState :=
  let gr := g.write (g.tf.Package.Value ++ "\n\n")
  let g2 := gr.1.sourceMapAdd g.tf.Package gr.2
  (g2.write "//lint:file-ignore SA4006 This context is only used if a nested component is present.\n\n").1

/-- `writeImports` from generator.go. -/
def writeImports (g : GenState) : GenState :=
  let g := (g.write "import \"github.com/a-h/templ\"\n").1
  let g := (g.write "import templruntime \"github.com/a-h/templ/runtime\"\n").1
  (g.write "\n").1

/-- The indexed loop of `writeTemplateNodes` from generator.go. -/
def writeTemplateNodesFrom (i : Nat) : List TemplateFileNode → GenState → GenState
  | [], g => g
  | n :: rest, g =>
    let g :=
      match n with
      | .TemplateFileGoExpression e => writeGoExpression e g
      | .HTMLTemplateNode t => writeTemplate i t g
      | .CSSTemplateNode c => writeCSS c g
      | .ScriptTemplateNode s => writeScript s g
    writeTemplateNodesFrom (i + 1) rest g

/-- `writeTemplateNodes` from generator.go. -/
def writeTemplateNodes (g : GenState) : GenState :=
  writeTemplateNodesFrom 0 g.tf.Nodes g

/-- `writeBlankAssignmentForRuntimeImport` from generator.go. -/
def writeBlankAssignmentForRuntimeImport (g : GenState) : GenState :=
  (g.write "var _ = templruntime.GeneratedTemplate").1

/-- `generate` from generator.go: the full emission pipeline. -/
def generate (g : GenState) : GenState :=
  let g := writeCodeGeneratedComment g
  let g := writeVersionComment g
  let g := writeGeneratedDateComment g
  let g := writeHeader g
  let g := writePackage g
  let g := writeImports g
  let g := writeTemplateNodes g
  writeBlankAssignmentForRuntimeImport g

/-- The zero generator state for a template file and options (`Generate`
builds the generator with a fresh range writer and source map). -/
def initialGenState (tf : TemplateFile) (opts : GeneratorOptions) : GenState :=
  { tf := tf, out := "", pos := ⟨0, 0, 0⟩, Literals := [], sourceMap := ⟨[], []⟩,
    variableID := 0, childrenVar := "", options := opts }

/-- `Generate` from generator.go: run the generator; the `GeneratorOutput`
(options, source map, literals) plus the emitted text. -/
def Generate (tf : TemplateFile) (opts : GeneratorOptions) : GeneratorOutput × String :=
  let g := generate (initialGenState tf opts)
  ({ Options := g.options, SourceMap := g.sourceMap, Literals := g.Literals }, g.out)

/-! Sample values used by concrete witnesses and counterexamples. -/

def emptyRange : Range := ⟨⟨0, 0, 0⟩, ⟨0, 0, 0⟩⟩

def sampleOptions : GeneratorOptions := ⟨"", "", false, ""⟩

def sampleTF : TemplateFile := ⟨[], ⟨"package main", emptyRange⟩, []⟩

def sampleState : GenState := initialGenState sampleTF sampleOptions

theorem writeStringLiteral_Literals (g : GenState) (lvl : Nat) (s : String) :
    ((g.writeStringLiteral lvl s).1).Literals = g.Literals ++ [s] := rfl

/-- C10: a `StringExpression` or `GoCode` node whose expression text is
empty or all white space emits nothing: the generator state is returned
unchanged (no output, no fresh variable, no source-map or literals entry). -/
theorem writeStringExpression_goCode_blank_noop (indentLevel : Nat) (e : Expression)
    (g : GenState) (h : goTrimSpace e.Value = "") :
    writeStringExpression indentLevel e g = g ∧ writeGoCode indentLevel e g = g := by
  constructor
  · simp [writeStringExpression, h]
  · simp [writeGoCode, h]

/-- Witness for C10 at a concrete all-whitespace expression. -/
theorem writeStringExpression_goCode_blank_noop_witness :
    goTrimSpace "  \n\t " = "" ∧
    writeStringExpression 0 ⟨"  \n\t ", emptyRange⟩ sampleState = sampleState ∧
    writeGoCode 0 ⟨"  \n\t ", emptyRange⟩ sampleState = sampleState :=
  ⟨by decide,
   (writeStringExpression_goCode_blank_noop 0 ⟨"  \n\t ", emptyRange⟩ sampleState (by decide)).1,
   (writeStringExpression_goCode_blank_noop 0 ⟨"  \n\t ", emptyRange⟩ sampleState (by decide)).2⟩

/-- C5: every literal emitted for a `Whitespace` node or a trailing-space
marker is the single space; vertical space is normalized to horizontal
before emission (identical states) and its string never appears as a
literal. -/
theorem emitted_whitespace_literal_is_single_space (indentLevel : Nat) (v : String)
    (ts : TrailingSpace) (g : GenState) :
    ((writeWhitespace indentLevel v g).Literals = g.Literals ∨
      (writeWhitespace indentLevel v g).Literals = g.Literals ++ [" "]) ∧
    ((writeWhitespaceTrailer indentLevel ts g).Literals = g.Literals ∨
      (writeWhitespaceTrailer indentLevel ts g).Literals = g.Literals ++ [" "]) ∧
    writeWhitespaceTrailer indentLevel TrailingSpace.SpaceVertical g =
      writeWhitespaceTrailer indentLevel TrailingSpace.SpaceHorizontal g ∧
    (" " : String) ≠ TrailingSpace.SpaceVertical.str := by
  refine ⟨?_, ?_, ?_, by decide⟩
  · by_cases h : v.length == 0
    · left
      simp [writeWhitespace, h]
    · right
      simp only [writeWhitespace, h, Bool.false_eq_true, if_false]
      exact writeStringLiteral_Literals _ _ _
  · cases ts with
    | SpaceNone => left; simp [writeWhitespaceTrailer]
    | SpaceHorizontal =>
        right
        simp only [writeWhitespaceTrailer]
        exact writeStringLiteral_Literals _ _ _
    | SpaceVertical =>
        right
        simp only [writeWhitespaceTrailer]
        exact writeStringLiteral_Literals _ _ _
  · simp [writeWhitespaceTrailer]

/-- The claim's description of inline-or-text, written out per its words:
`IfExpression, SwitchExpression, ForExpression, Text, StringExpression`, or
an `Element` whose tag is not a block element. -/
def inlineOrTextSpec (n : Node) : Prop :=
  match n with
  | .IfExpression _ _ _ _ => True
  | .SwitchExpression _ _ => True
  | .ForExpression _ _ => True
  | .Element name _ _ _ => isBlockElement name = false
  | .Text _ _ => True
  | .StringExpression _ _ => True
  | _ => False

/-- The claim's rule for the successor: a missing next sibling counts as
not inline-or-text. -/
def nextInlineOrTextSpec : Option Node → Prop
  | some m => inlineOrTextSpec m
  | none => False

theorem isInlineOrText_iff (n : Node) : isInlineOrText (some n) = true ↔ inlineOrTextSpec n := by
  cases n <;> simp [isInlineOrText, inlineOrTextSpec]

theorem isInlineOrText_next_iff (next : Option Node) :
    isInlineOrText next = true ↔ nextInlineOrTextSpec next := by
  cases next with
  | none => simp [isInlineOrText, nextInlineOrTextSpec]
  | some n => exact isInlineOrText_iff n

/-- C3: during node emission a normalized single-space literal follows the
node exactly when the node carries a non-none trailing-space marker and
both it and its next sibling are inline-or-text; and `isInlineOrText`
holds exactly of the node kinds the claim lists. -/
theorem writeNode_trailing_space_characterization (indentLevel : Nat) (current : Node)
    (next : Option Node) (g : GenState) :
    ((∃ ts, nodeTrailing current = some ts ∧ ts ≠ TrailingSpace.SpaceNone) ∧
        inlineOrTextSpec current ∧ nextInlineOrTextSpec next →
      writeNode indentLevel current next g =
        ((writeNodeDispatch indentLevel current next g).writeStringLiteral indentLevel " ").1) ∧
    (¬ ((∃ ts, nodeTrailing current = some ts ∧ ts ≠ TrailingSpace.SpaceNone) ∧
        inlineOrTextSpec current ∧ nextInlineOrTextSpec next) →
      writeNode indentLevel current next g = writeNodeDispatch indentLevel current next g) ∧
    (∀ n : Node, isInlineOrText (some n) = true ↔ inlineOrTextSpec n) := by
  refine ⟨?_, ?_, isInlineOrText_iff⟩
  · rintro ⟨⟨ts, hts, hne⟩, hcur, hnext⟩
    have h1 : isInlineOrText (some current) = true := (isInlineOrText_iff current).mpr hcur
    have h2 : isInlineOrText next = true := (isInlineOrText_next_iff next).mpr hnext
    unfold writeNode
    rw [hts]
    simp only [h1, h2, Bool.and_self, if_true]
    cases ts with
    | SpaceNone => exact absurd rfl hne
    | SpaceHorizontal => simp [writeWhitespaceTrailer, TrailingSpace.str]
    | SpaceVertical => simp [writeWhitespaceTrailer, TrailingSpace.str]
  · intro hn
    unfold writeNode
    cases hts : nodeTrailing current with
    | none => simp
    | some ts =>
      rcases Decidable.em (isInlineOrText (some current) = true ∧ isInlineOrText next = true)
        with hb | hb
      · have hts0 : ts = TrailingSpace.SpaceNone := by
          by_contra hne
          exact hn ⟨⟨ts, hts, hne⟩, (isInlineOrText_iff _).mp hb.1,
            (isInlineOrText_next_iff _).mp hb.2⟩
        subst hts0
        simp [hb.1, hb.2, writeWhitespaceTrailer]
      · have hfalse : (isInlineOrText (some current) && isInlineOrText next) = false := by
          cases hx : isInlineOrText (some current) <;> cases hy : isInlineOrText next <;>
            simp_all
        simp [hfalse]

/-- Witness for C3 at a concrete text node with a horizontal trailing
marker followed by another text node. -/
theorem writeNode_trailing_space_characterization_witness :
    writeNode 0 (Node.Text "a" TrailingSpace.SpaceHorizontal)
        (some (Node.Text "b" TrailingSpace.SpaceNone)) sampleState =
      ((writeNodeDispatch 0 (Node.Text "a" TrailingSpace.SpaceHorizontal)
          (some (Node.Text "b" TrailingSpace.SpaceNone)) sampleState).writeStringLiteral 0 " ").1 :=
  (writeNode_trailing_space_characterization 0 _ _ sampleState).1
    ⟨⟨TrailingSpace.SpaceHorizontal, rfl, by decide⟩, trivial, trivial⟩

theorem isExpressionAttributeValueURL_iff (en an : String) :
    isExpressionAttributeValueURL en an = true ↔
      ((en = "a" ∧ an = "href") ∨ (en = "link" ∧ an = "href") ∨
       (en = "form" ∧ an = "action") ∨ (en = "object" ∧ an = "data")) := by
  constructor
  · intro h
    unfold isExpressionAttributeValueURL at h
    split_ifs at h with h1 h2 h3
    · simp only [Bool.or_eq_true, beq_iff_eq] at h1
      simp only [beq_iff_eq] at h
      rcases h1 with h1 | h1
      · exact Or.inl ⟨h1, h⟩
      · exact Or.inr (Or.inl ⟨h1, h⟩)
    · simp only [beq_iff_eq] at h2 h
      exact Or.inr (Or.inr (Or.inl ⟨h2, h⟩))
    · simp only [beq_iff_eq] at h3 h
      exact Or.inr (Or.inr (Or.inr ⟨h3, h⟩))
  · rintro (⟨he, ha⟩ | ⟨he, ha⟩ | ⟨he, ha⟩ | ⟨he, ha⟩) <;> subst he <;> subst ha <;> rfl

theorem isScriptAttribute_iff (name : String) :
    isScriptAttribute name = true ↔
      (name.startsWith "on" = true ∨ name.startsWith "hx-on:" = true) := by
  simp [isScriptAttribute]

/-- C4: the value of an `ExpressionAttribute` goes through `JoinURLErrs`
exactly for the pairs a.href, link.href, form.action, object.data;
otherwise through the script-variable path when the key begins with `on`
or `hx-on:`; otherwise through `SanitizeStyleAttributeValues` for `style`;
and through `JoinStringErrs` in all remaining cases. -/
theorem writeExpressionAttribute_contexts (indentLevel : Nat) (elementName : String)
    (key : AttributeKey) (e : Expression) (g : GenState) :
    writeExpressionAttribute indentLevel elementName key e g =
      (let g1 := writeAttributeKey indentLevel key g
       let g2 := (g1.writeStringLiteral indentLevel "=\\\"").1
       let attrKey := htmlEscapeString key.keyString
       let g3 :=
         if (elementName = "a" ∧ attrKey = "href") ∨ (elementName = "link" ∧ attrKey = "href") ∨
            (elementName = "form" ∧ attrKey = "action") ∨
            (elementName = "object" ∧ attrKey = "data") then
           writeExpressionAttributeValueURL indentLevel e g2
         else if attrKey.startsWith "on" = true ∨ attrKey.startsWith "hx-on:" = true then
           writeExpressionAttributeValueScript indentLevel e g2
         else if attrKey = "style" then
           writeExpressionAttributeValueStyle indentLevel e g2
         else
           writeExpressionAttributeValueDefault indentLevel e g2
       (g3.writeStringLiteral indentLevel "\\\"").1) := by
  simp only [writeExpressionAttribute]
  by_cases h1 : isExpressionAttributeValueURL elementName (htmlEscapeString key.keyString) = true
  · rw [if_pos h1, if_pos ((isExpressionAttributeValueURL_iff _ _).mp h1)]
  · rw [if_neg h1, if_neg (fun hp => h1 ((isExpressionAttributeValueURL_iff _ _).mpr hp))]
    by_cases h2 : isScriptAttribute (htmlEscapeString key.keyString) = true
    · rw [if_pos h2, if_pos ((isScriptAttribute_iff _).mp h2)]
    · rw [if_neg h2, if_neg (fun hp => h2 ((isScriptAttribute_iff _).mpr hp))]
      by_cases h3 : htmlEscapeString key.keyString = "style"
      · rw [if_pos (by simpa using h3), if_pos h3]
      · rw [if_neg (by simpa using h3), if_neg h3]

/-- The claim's description of the raw-element escaping, written out per
its words: an escaping that changes quote characters only and leaves every
other character unchanged. -/
def quoteOnlyEscapeData : List Char → List Char
  | [] => []
  | c :: rest => (if c.toNat == 34 then "\\\"".data else [c]) ++ quoteOnlyEscapeData rest

/-- String form of `quoteOnlyEscapeData`. -/
def quoteOnlyEscape (s : String) : String :=
  String.mk (quoteOnlyEscapeData s.data)

/-- Counterexample for C9: the generator escapes raw-element contents with
Go string quoting, which changes more than quote characters — a newline in
the contents does not appear unchanged in the emitted literal. -/
theorem escapeQuotes_changes_more_than_quotes :
    escapeQuotes "a\nb" ≠ quoteOnlyEscape "a\nb" ∧
    Char.ofNat 10 ∈ "a\nb".data ∧ Char.ofNat 10 ∉ (escapeQuotes "a\nb").data := by
  decide

theorem quoteRune_data_printable (c : Char) (h1 : 0x20 ≤ c.toNat) (h2 : c.toNat ≤ 0x7E)
    (h3 : c ≠ Char.ofNat 92) :
    (quoteRune c).data = (if c.toNat == 34 then "\\\"".data else [c]) := by
  unfold quoteRune
  by_cases h34 : c.toNat == 34
  · simp [h34]
  · have hbs : (c == Char.ofNat 92) = false := by
      simpa using h3
    simp [h34, hbs, h1, h2, String.singleton]

theorem escapeQuotesData_eq_quoteOnly_of_printable (l : List Char)
    (h : ∀ c ∈ l, 0x20 ≤ c.toNat ∧ c.toNat ≤ 0x7E ∧ c ≠ Char.ofNat 92) :
    escapeQuotesData l = quoteOnlyEscapeData l := by
  induction l with
  | nil => rfl
  | cons c rest ih =>
    have hc := h c (by simp)
    rw [escapeQuotesData, quoteOnlyEscapeData, quoteRune_data_printable c hc.1 hc.2.1 hc.2.2,
      ih (fun x hx => h x (by simp [hx]))]

theorem Literals_writeText_close (lvl : Nat) (contents name : String) (g0 : GenState) :
    (((writeText lvl contents g0).writeStringLiteral lvl
        ("</" ++ htmlEscapeString name ++ ">")).1).Literals =
      g0.Literals ++ [escapeQuotes contents, "</" ++ htmlEscapeString name ++ ">"] := by
  simp [writeText, writeStringLiteral_Literals]

/-- C9 (amended): raw-element contents are emitted as one text literal at
the end of the element's literal sequence, escaped with Go string quoting;
for contents of printable ASCII free of backslashes that quoting changes
quote characters only. -/
theorem writeRawElement_quote_escaping (indentLevel : Nat) (name : String)
    (attributes : List Attribute) (contents : String) (g : GenState)
    (h : ∀ c ∈ contents.data, 0x20 ≤ c.toNat ∧ c.toNat ≤ 0x7E ∧ c ≠ Char.ofNat 92) :
    (∃ pre, (writeRawElement indentLevel name attributes contents g).Literals =
        pre ++ [escapeQuotes contents, "</" ++ htmlEscapeString name ++ ">"]) ∧
    escapeQuotes contents = quoteOnlyEscape contents := by
  constructor
  · unfold writeRawElement
    exact ⟨_, Literals_writeText_close indentLevel contents name _⟩
  · exact congrArg String.mk (escapeQuotesData_eq_quoteOnly_of_printable contents.data h)

/-- Witness for C9 (amended) at concrete contents containing a quote. -/
theorem writeRawElement_quote_escaping_witness :
    (∃ pre, (writeRawElement 0 "style" [] "a\"b" sampleState).Literals =
        pre ++ [escapeQuotes "a\"b", "</" ++ htmlEscapeString "style" ++ ">"]) ∧
    escapeQuotes "a\"b" = quoteOnlyEscape "a\"b" :=
  writeRawElement_quote_escaping 0 "style" [] "a\"b" sampleState (by decide)

/-! Literal-tracking lemmas: which writers append which string literals. -/

theorem Literals_writeIndent (g : GenState) (lvl : Nat) (s : String) :
    ((g.writeIndent lvl s).1).Literals = g.Literals := rfl

theorem Literals_writeErrorHandler (lvl : Nat) (g : GenState) :
    (writeErrorHandler lvl g).Literals = g.Literals := rfl

theorem Literals_writeExpressionErrorHandler (lvl : Nat) (e : Expression) (g : GenState) :
    (writeExpressionErrorHandler lvl e g).Literals = g.Literals := rfl

theorem Literals_writeExpressionAttributeValueURL (lvl : Nat) (e : Expression) (g : GenState) :
    (writeExpressionAttributeValueURL lvl e g).Literals = g.Literals := rfl

theorem Literals_writeExpressionAttributeValueScript (lvl : Nat) (e : Expression) (g : GenState) :
    (writeExpressionAttributeValueScript lvl e g).Literals = g.Literals := rfl

theorem Literals_writeExpressionAttributeValueStyle (lvl : Nat) (e : Expression) (g : GenState) :
    (writeExpressionAttributeValueStyle lvl e g).Literals = g.Literals := rfl

theorem Literals_writeExpressionAttributeValueDefault (lvl : Nat) (e : Expression) (g : GenState) :
    (writeExpressionAttributeValueDefault lvl e g).Literals = g.Literals := rfl

theorem Literals_writeSpreadAttributes (lvl : Nat) (e : Expression) (g : GenState) :
    (writeSpreadAttributes lvl e g).Literals = g.Literals := rfl

theorem Literals_writeAttributeCSS (lvl : Nat) (key : AttributeKey) (e : Expression)
    (g : GenState) : ((writeAttributeCSS lvl key e g).1).Literals = g.Literals := by
  simp only [writeAttributeCSS]
  split <;> rfl

theorem Literals_writeAttributesCSS :
    ∀ (lvl : Nat) (attrs : List Attribute) (g : GenState),
      ((writeAttributesCSS lvl attrs g).1).Literals = g.Literals
  | lvl, [], g => by simp only [writeAttributesCSS]
  | lvl, Attribute.BoolConstantAttribute key :: rest, g => by
    simp only [writeAttributesCSS]
    rw [Literals_writeAttributesCSS lvl rest _]
  | lvl, Attribute.ConstantAttribute key v sq :: rest, g => by
    simp only [writeAttributesCSS]
    rw [Literals_writeAttributesCSS lvl rest _]
  | lvl, Attribute.BoolExpressionAttribute key e :: rest, g => by
    simp only [writeAttributesCSS]
    rw [Literals_writeAttributesCSS lvl rest _]
  | lvl, Attribute.ExpressionAttribute key e :: rest, g => by
    simp only [writeAttributesCSS]
    cases hx : (writeAttributeCSS lvl key e g).2 with
    | some ke =>
      simp only [hx]
      rw [Literals_writeAttributesCSS lvl rest _]
      exact Literals_writeAttributeCSS lvl key e g
    | none =>
      simp only [hx]
      rw [Literals_writeAttributesCSS lvl rest _]
      exact Literals_writeAttributeCSS lvl key e g
  | lvl, Attribute.SpreadAttributes e :: rest, g => by
    simp only [writeAttributesCSS]
    rw [Literals_writeAttributesCSS lvl rest _]
  | lvl, Attribute.ConditionalAttribute e ta fa :: rest, g => by
    simp only [writeAttributesCSS]
    rw [Literals_writeAttributesCSS lvl rest _, Literals_writeAttributesCSS lvl fa _,
      Literals_writeAttributesCSS lvl ta g]
termination_by lvl attrs g => sizeOf attrs
decreasing_by
  all_goals (simp only [List.cons.sizeOf_spec, Attribute.ConditionalAttribute.sizeOf_spec]; omega)

theorem Literals_writeElementScript (lvl : Nat) (attrs : List Attribute) (g : GenState) :
    (writeElementScript lvl attrs g).Literals = g.Literals := by
  simp only [writeElementScript]
  split <;> rfl

/-- The literals appended while emitting attributes all begin with a space,
an equals sign, or a backslash — never with `<`. -/
def attrLiteralHead (l : String) : Prop :=
  l.data.head? = some ' ' ∨ l.data.head? = some '=' ∨ l.data.head? = some (Char.ofNat 92)

theorem Literals_writeAttributeKey (lvl : Nat) (key : AttributeKey) (g : GenState) :
    ∃ ls, (writeAttributeKey lvl key g).Literals = g.Literals ++ ls ∧
      ∀ l ∈ ls, attrLiteralHead l := by
  cases key with
  | ConstantAttributeKey nm =>
    refine ⟨[" " ++ htmlEscapeString nm], writeStringLiteral_Literals _ _ _, ?_⟩
    intro l hl
    simp only [List.mem_singleton] at hl
    subst hl
    left
    simp [String.data_append]
  | ExpressionAttributeKey e =>
    refine ⟨[], ?_, nofun⟩
    rw [List.append_nil]
    rfl

theorem escapeQuotes_eq_head (r : String) :
    (escapeQuotes ("=" ++ r)).data.head? = some '=' := by
  have h : ("=" ++ r).data = '=' :: r.data := by simp [String.data_append]
  simp [escapeQuotes, h, escapeQuotesData, quoteRune, String.singleton]

theorem Literals_writeConstantAttribute (lvl : Nat) (key : AttributeKey) (v : String)
    (sq : Bool) (g : GenState) :
    ∃ ls, (writeConstantAttribute lvl key v sq g).Literals = g.Literals ++ ls ∧
      ∀ l ∈ ls, attrLiteralHead l := by
  obtain ⟨kls, hk, hkh⟩ := Literals_writeAttributeKey lvl key g
  refine ⟨kls ++ [escapeQuotes ("=" ++ (if sq then "\x27" else "\"") ++ v ++
    (if sq then "\x27" else "\""))], ?_, ?_⟩
  · unfold writeConstantAttribute
    rw [writeStringLiteral_Literals, hk, List.append_assoc]
  · intro l hl
    rcases List.mem_append.mp hl with hl | hl
    · exact hkh l hl
    · simp only [List.mem_singleton] at hl
      subst hl
      right; left
      have : "=" ++ (if sq then "\x27" else "\"") ++ v ++ (if sq then "\x27" else "\"") =
          "=" ++ ((if sq then "\x27" else "\"") ++ v ++ (if sq then "\x27" else "\"")) := by
        simp [String.ext_iff, String.data_append, List.append_assoc]
      rw [this]
      exact escapeQuotes_eq_head _

theorem Literals_writeBoolExpressionAttribute (lvl : Nat) (key : AttributeKey) (e : Expression)
    (g : GenState) :
    ∃ ls, (writeBoolExpressionAttribute lvl key e g).Literals = g.Literals ++ ls ∧
      ∀ l ∈ ls, attrLiteralHead l := by
  obtain ⟨kls, hk, hkh⟩ := Literals_writeAttributeKey (lvl + 1) key
    (((((g.writeIndent lvl "if ").1.write e.Value).1.sourceMapAdd e
        ((g.writeIndent lvl "if ").1.write e.Value).2).write " \x7b\n").1)
  exact ⟨kls, hk, hkh⟩

theorem Literals_writeExpressionAttribute (lvl : Nat) (en : String) (key : AttributeKey)
    (e : Expression) (g : GenState) :
    ∃ ls, (writeExpressionAttribute lvl en key e g).Literals = g.Literals ++ ls ∧
      ∀ l ∈ ls, attrLiteralHead l := by
  obtain ⟨kls, hk, hkh⟩ := Literals_writeAttributeKey lvl key g
  refine ⟨kls ++ ["=\\\"", "\\\""], ?_, ?_⟩
  · simp only [writeExpressionAttribute]
    split
    · rw [writeStringLiteral_Literals, Literals_writeExpressionAttributeValueURL,
        writeStringLiteral_Literals, hk]
      simp
    · split
      · rw [writeStringLiteral_Literals, Literals_writeExpressionAttributeValueScript,
          writeStringLiteral_Literals, hk]
        simp
      · split
        · rw [writeStringLiteral_Literals, Literals_writeExpressionAttributeValueStyle,
            writeStringLiteral_Literals, hk]
          simp
        · rw [writeStringLiteral_Literals, Literals_writeExpressionAttributeValueDefault,
            writeStringLiteral_Literals, hk]
          simp
  · intro l hl
    rcases List.mem_append.mp hl with hl | hl
    · exact hkh l hl
    · simp only [List.mem_cons, List.mem_singleton] at hl
      rcases hl with hl | hl | hl
      · subst hl; right; left; rfl
      · subst hl; right; right; rfl
      · cases hl

theorem Literals_writeBoolConstantAttribute (lvl : Nat) (key : AttributeKey) (g : GenState) :
    ∃ ls, (writeBoolConstantAttribute lvl key g).Literals = g.Literals ++ ls ∧
      ∀ l ∈ ls, attrLiteralHead l :=
  Literals_writeAttributeKey lvl key g

theorem Literals_writeSpreadAttributes_exists (lvl : Nat) (e : Expression) (g : GenState) :
    ∃ ls, (writeSpreadAttributes lvl e g).Literals = g.Literals ++ ls ∧
      ∀ l ∈ ls, attrLiteralHead l :=
  ⟨[], by rw [List.append_nil]; rfl, nofun⟩

mutual

theorem attrLits_writeElementAttributes (lvl : Nat) (name : String) :
    ∀ (attrs : List Attribute) (g : GenState),
      ∃ ls, (writeElementAttributes lvl name attrs g).Literals = g.Literals ++ ls ∧
        ∀ l ∈ ls, attrLiteralHead l
  | [], g => ⟨[], by simp only [writeElementAttributes, List.append_nil], nofun⟩
  | attr :: rest, g => by
    cases attr with
    | BoolConstantAttribute key =>
      simp only [writeElementAttributes]
      obtain ⟨ls1, h1, hh1⟩ := Literals_writeBoolConstantAttribute lvl key g
      obtain ⟨ls2, h2, hh2⟩ :=
        attrLits_writeElementAttributes lvl name rest (writeBoolConstantAttribute lvl key g)
      refine ⟨ls1 ++ ls2, ?_, ?_⟩
      · rw [h2, h1, List.append_assoc]
      · intro l hl
        rcases List.mem_append.mp hl with h | h
        exacts [hh1 l h, hh2 l h]
    | ConstantAttribute key v sq =>
      simp only [writeElementAttributes]
      obtain ⟨ls1, h1, hh1⟩ := Literals_writeConstantAttribute lvl key v sq g
      obtain ⟨ls2, h2, hh2⟩ :=
        attrLits_writeElementAttributes lvl name rest (writeConstantAttribute lvl key v sq g)
      refine ⟨ls1 ++ ls2, ?_, ?_⟩
      · rw [h2, h1, List.append_assoc]
      · intro l hl
        rcases List.mem_append.mp hl with h | h
        exacts [hh1 l h, hh2 l h]
    | BoolExpressionAttribute key e =>
      simp only [writeElementAttributes]
      obtain ⟨ls1, h1, hh1⟩ := Literals_writeBoolExpressionAttribute lvl key e g
      obtain ⟨ls2, h2, hh2⟩ :=
        attrLits_writeElementAttributes lvl name rest (writeBoolExpressionAttribute lvl key e g)
      refine ⟨ls1 ++ ls2, ?_, ?_⟩
      · rw [h2, h1, List.append_assoc]
      · intro l hl
        rcases List.mem_append.mp hl with h | h
        exacts [hh1 l h, hh2 l h]
    | ExpressionAttribute key e =>
      simp only [writeElementAttributes]
      obtain ⟨ls1, h1, hh1⟩ := Literals_writeExpressionAttribute lvl name key e g
      obtain ⟨ls2, h2, hh2⟩ :=
        attrLits_writeElementAttributes lvl name rest (writeExpressionAttribute lvl name key e g)
      refine ⟨ls1 ++ ls2, ?_, ?_⟩
      · rw [h2, h1, List.append_assoc]
      · intro l hl
        rcases List.mem_append.mp hl with h | h
        exacts [hh1 l h, hh2 l h]
    | SpreadAttributes e =>
      simp only [writeElementAttributes]
      obtain ⟨ls1, h1, hh1⟩ := Literals_writeSpreadAttributes_exists lvl e g
      obtain ⟨ls2, h2, hh2⟩ :=
        attrLits_writeElementAttributes lvl name rest (writeSpreadAttributes lvl e g)
      refine ⟨ls1 ++ ls2, ?_, ?_⟩
      · rw [h2, h1, List.append_assoc]
      · intro l hl
        rcases List.mem_append.mp hl with h | h
        exacts [hh1 l h, hh2 l h]
    | ConditionalAttribute e ta fa =>
      simp only [writeElementAttributes]
      obtain ⟨ls1, h1, hh1⟩ := attrLits_writeConditionalAttribute lvl name e ta fa g
      obtain ⟨ls2, h2, hh2⟩ :=
        attrLits_writeElementAttributes lvl name rest (writeConditionalAttribute lvl name e ta fa g)
      refine ⟨ls1 ++ ls2, ?_, ?_⟩
      · rw [h2, h1, List.append_assoc]
      · intro l hl
        rcases List.mem_append.mp hl with h | h
        exacts [hh1 l h, hh2 l h]
termination_by attrs g => 2 * sizeOf attrs

theorem attrLits_writeConditionalAttribute (lvl : Nat) (name : String) (e : Expression)
    (ta fa : List Attribute) (g : GenState) :
    ∃ ls, (writeConditionalAttribute lvl name e ta fa g).Literals = g.Literals ++ ls ∧
      ∀ l ∈ ls, attrLiteralHead l := by
  obtain ⟨ls1, h1, hh1⟩ := attrLits_writeElementAttributes (lvl + 1) name ta
    (((((g.writeIndent lvl "if ").1.write e.Value).1.sourceMapAdd e
        ((g.writeIndent lvl "if ").1.write e.Value).2).write " \x7b\n").1)
  simp only [writeConditionalAttribute]
  split
  · obtain ⟨ls2, h2, hh2⟩ := attrLits_writeElementAttributes (lvl + 1) name fa
      (((writeElementAttributes (lvl + 1) name ta
          (((((g.writeIndent lvl "if ").1.write e.Value).1.sourceMapAdd e
              ((g.writeIndent lvl "if ").1.write e.Value).2).write " \x7b\n").1)).writeIndent
        lvl "\x7d else \x7b\n").1)
    refine ⟨ls1 ++ ls2, ?_, ?_⟩
    · rw [Literals_writeIndent, h2, Literals_writeIndent, h1]
      exact List.append_assoc _ _ _
    · intro l hl
      rcases List.mem_append.mp hl with h | h
      exacts [hh1 l h, hh2 l h]
  · refine ⟨ls1, ?_, hh1⟩
    rw [Literals_writeIndent, h1]
    rfl
termination_by 2 * (sizeOf ta + sizeOf fa) + 1

end

theorem Literals_writeElementCSS (lvl : Nat) (attrs : List Attribute) (g : GenState) :
    ((writeElementCSS lvl attrs g).1).Literals = g.Literals :=
  Literals_writeAttributesCSS lvl attrs g

/-- The literals appended by the open-tag portion of element emission:
the open-tag pieces and attribute literals only. -/
theorem Literals_writeElementOpen (lvl : Nat) (name : String) (attrs : List Attribute)
    (g : GenState) :
    ∃ ls, (writeElementOpen lvl name attrs g).Literals = g.Literals ++ ls ∧
      ∀ l ∈ ls, l = ("<" ++ htmlEscapeString name ++ ">") ∨ l = ("<" ++ htmlEscapeString name) ∨
        l = ">" ∨ attrLiteralHead l := by
  simp only [writeElementOpen]
  split
  · refine ⟨["<" ++ htmlEscapeString name ++ ">"], writeStringLiteral_Literals _ _ _, ?_⟩
    intro l hl
    simp only [List.mem_singleton] at hl
    subst hl
    exact Or.inl rfl
  · obtain ⟨als, ha, hah⟩ := attrLits_writeElementAttributes lvl name (writeElementCSS lvl attrs g).2
      (((writeElementScript lvl (writeElementCSS lvl attrs g).2
          (writeElementCSS lvl attrs g).1).writeStringLiteral lvl
        ("<" ++ htmlEscapeString name)).1)
    refine ⟨["<" ++ htmlEscapeString name] ++ als ++ [">"], ?_, ?_⟩
    · rw [writeStringLiteral_Literals, ha, writeStringLiteral_Literals,
        Literals_writeElementScript, Literals_writeElementCSS]
      simp [List.append_assoc]
    · intro l hl
      simp only [List.append_assoc, List.mem_append, List.mem_singleton, List.mem_cons] at hl
      rcases hl with (hl | hfalse) | hl | hl
      · exact Or.inr (Or.inl hl)
      · cases hfalse
      · exact Or.inr (Or.inr (Or.inr (hah l hl)))
      · rcases hl with hl | hfalse
        · exact Or.inr (Or.inr (Or.inl hl))
        · cases hfalse

theorem closing_tag_head (name : String) :
    ("</" ++ htmlEscapeString name ++ ">").data.head? = some '<' := by
  simp [String.data_append]

theorem closing_tag_length (name : String) :
    ("</" ++ htmlEscapeString name ++ ">").length = (htmlEscapeString name).length + 3 := by
  rw [String.length_append, String.length_append]
  have h1 : "</".length = 2 := rfl
  have h2 : ">".length = 1 := rfl
  omega

/-- C6: a known void element with an empty child list stops emission after
the open tag — no closing tag appears among the emitted literals; a void
element with children is emitted like a normal element, children plus
closing tag. -/
theorem writeElement_void_elements (lvl : Nat) (name : String) (attrs : List Attribute)
    (children : List Node) (g : GenState) :
    (isVoidElement name = true → children = [] →
      writeElement lvl name attrs children g = writeElementOpen lvl name attrs g ∧
      ∃ ls, (writeElementOpen lvl name attrs g).Literals = g.Literals ++ ls ∧
        ("</" ++ htmlEscapeString name ++ ">") ∉ ls) ∧
    (children ≠ [] →
      writeElement lvl name attrs children g =
        ((writeNodes lvl (stripWhitespace children) none
            (writeElementOpen lvl name attrs g)).writeStringLiteral lvl
          ("</" ++ htmlEscapeString name ++ ">")).1) := by
  constructor
  · intro hv hc
    subst hc
    constructor
    · simp [writeElement, hv]
    · obtain ⟨ls, h, hmem⟩ := Literals_writeElementOpen lvl name attrs g
      refine ⟨ls, h, ?_⟩
      intro hin
      rcases hmem _ hin with h1 | h1 | h1 | h1
      · have hlen := congrArg String.length h1
        rw [closing_tag_length, String.length_append, String.length_append] at hlen
        have e1 : "<".length = 1 := rfl
        have e2 : ">".length = 1 := rfl
        omega
      · have hlen := congrArg String.length h1
        rw [closing_tag_length, String.length_append] at hlen
        have e1 : "<".length = 1 := rfl
        omega
      · have hlen := congrArg String.length h1
        rw [closing_tag_length] at hlen
        have e2 : (">" : String).length = 1 := rfl
        omega
      · have hhead := closing_tag_head name
        rcases h1 with h1 | h1 | h1 <;> rw [hhead] at h1 <;> simp at h1
  · intro hc
    have hlen : (children.length == 0) = false := by
      cases children with
      | nil => exact absurd rfl hc
      | cons a r => simp
    simp [writeElement, hlen]

/-- Witness for C6: the void element `br` with and without children. -/
theorem writeElement_void_elements_witness :
    (writeElement 0 "br" [] [] sampleState = writeElementOpen 0 "br" [] sampleState ∧
     ∃ ls, (writeElementOpen 0 "br" [] sampleState).Literals = sampleState.Literals ++ ls ∧
       ("</" ++ htmlEscapeString "br" ++ ">") ∉ ls) ∧
    (writeElement 0 "br" [] [Node.Text "x" TrailingSpace.SpaceNone] sampleState =
      ((writeNodes 0 (stripWhitespace [Node.Text "x" TrailingSpace.SpaceNone]) none
          (writeElementOpen 0 "br" [] sampleState)).writeStringLiteral 0
        ("</" ++ htmlEscapeString "br" ++ ">")).1) :=
  ⟨(writeElement_void_elements 0 "br" [] [] sampleState).1 (by decide) rfl,
   (writeElement_void_elements 0 "br" [] [Node.Text "x" TrailingSpace.SpaceNone] sampleState).2
     (by simp)⟩

/-! Frame lemmas: node-level writers never touch the template file, the
options, or the symbol-range table, only append to the output, and move
the cursor forward. -/

theorem advanceAux_Index (l : List Char) : ∀ p : Position, (advanceAux p l).Index = p.Index + l.length := by
  induction l with
  | nil => intro p; simp [advanceAux]
  | cons c rest ih =>
    intro p
    simp only [advanceAux]
    split <;> (rw [ih]; simp; omega)

theorem advance_Index (p : Position) (s : String) : (advance p s).Index = p.Index + s.length :=
  advanceAux_Index s.data p

theorem string_append_assoc (a b c : String) : a ++ b ++ c = a ++ (b ++ c) := by
  apply String.ext
  simp [String.data_append, List.append_assoc]

def Preserves (g g' : GenState) : Prop :=
  g'.tf = g.tf ∧ g'.options = g.options ∧
  g'.sourceMap.SymbolRanges = g.sourceMap.SymbolRanges ∧
  g.pos.Index ≤ g'.pos.Index ∧ (∃ s, g'.out = g.out ++ s)

theorem Preserves.refl (g : GenState) : Preserves g g :=
  ⟨rfl, rfl, rfl, le_refl _, "", by apply String.ext; simp [String.data_append]⟩

theorem Preserves.trans {g0 g1 g2 : GenState} (h1 : Preserves g0 g1) (h2 : Preserves g1 g2) :
    Preserves g0 g2 := by
  obtain ⟨ha1, hb1, hc1, hd1, s1, he1⟩ := h1
  obtain ⟨ha2, hb2, hc2, hd2, s2, he2⟩ := h2
  exact ⟨ha2.trans ha1, hb2.trans hb1, hc2.trans hc1, hd1.trans hd2,
    s1 ++ s2, by rw [he2, he1, string_append_assoc]⟩

theorem Preserves_write (g : GenState) (s : String) : Preserves g ((g.write s).1) :=
  ⟨rfl, rfl, rfl, by simp [GenState.write, advance_Index], s, rfl⟩

theorem Preserves.write_r {g0 g : GenState} (h : Preserves g0 g) (s : String) :
    Preserves g0 ((g.write s).1) :=
  h.trans (Preserves_write g s)

theorem Preserves.writeIndent_r {g0 g : GenState} (h : Preserves g0 g) (lvl : Nat) (s : String) :
    Preserves g0 ((g.writeIndent lvl s).1) :=
  h.trans (Preserves_write g (tabs lvl ++ s))

theorem Preserves_writeStringLiteral (g : GenState) (lvl : Nat) (s : String) :
    Preserves g ((g.writeStringLiteral lvl s).1) := by
  obtain ⟨ha, hb, hc, hd, t, he⟩ := Preserves_write g
    (tabs lvl ++ ("_, templ_7745c5c3_Err = templ_7745c5c3_Buffer.WriteString(\"" ++ s ++ "\")\n"))
  exact ⟨ha, hb, hc, hd, t, he⟩

theorem Preserves.writeStringLiteral_r {g0 g : GenState} (h : Preserves g0 g) (lvl : Nat)
    (s : String) : Preserves g0 ((g.writeStringLiteral lvl s).1) :=
  h.trans (Preserves_writeStringLiteral g lvl s)

theorem Preserves_sourceMapAdd (g : GenState) (e : Expression) (r : Range) :
    Preserves g (g.sourceMapAdd e r) :=
  ⟨rfl, rfl, rfl, le_refl _, "",
   by apply String.ext; simp [GenState.sourceMapAdd, String.data_append]⟩

theorem Preserves.sourceMapAdd_r {g0 g : GenState} (h : Preserves g0 g) (e : Expression)
    (r : Range) : Preserves g0 (g.sourceMapAdd e r) :=
  h.trans (Preserves_sourceMapAdd g e r)

theorem Preserves_createVariableName (g : GenState) : Preserves g (g.createVariableName).1 :=
  ⟨rfl, rfl, rfl, le_refl _, "",
   by apply String.ext; simp [GenState.createVariableName, String.data_append]⟩

theorem Preserves.createVariableName_r {g0 g : GenState} (h : Preserves g0 g) :
    Preserves g0 (g.createVariableName).1 :=
  h.trans (Preserves_createVariableName g)

theorem Preserves_writeErrorHandler (lvl : Nat) (g : GenState) :
    Preserves g (writeErrorHandler lvl g) := by
  unfold writeErrorHandler
  exact (((Preserves.refl g).writeIndent_r _ _).writeIndent_r _ _).writeIndent_r _ _

theorem Preserves.writeErrorHandler_r {g0 g : GenState} (h : Preserves g0 g) (lvl : Nat) :
    Preserves g0 (writeErrorHandler lvl g) :=
  h.trans (Preserves_writeErrorHandler lvl g)

theorem Preserves_writeExpressionErrorHandler (lvl : Nat) (e : Expression) (g : GenState) :
    Preserves g (writeExpressionErrorHandler lvl e g) := by
  unfold writeExpressionErrorHandler
  exact (((Preserves.refl g).writeIndent_r _ _).writeIndent_r _ _).writeIndent_r _ _

theorem Preserves.writeExpressionErrorHandler_r {g0 g : GenState} (h : Preserves g0 g)
    (lvl : Nat) (e : Expression) : Preserves g0 (writeExpressionErrorHandler lvl e g) :=
  h.trans (Preserves_writeExpressionErrorHandler lvl e g)

theorem Preserves_writeDocType (lvl : Nat) (v : String) (g : GenState) :
    Preserves g (writeDocType lvl v g) :=
  Preserves_writeStringLiteral g lvl _

theorem Preserves_writeText (lvl : Nat) (v : String) (g : GenState) :
    Preserves g (writeText lvl v g) :=
  Preserves_writeStringLiteral g lvl _

theorem Preserves_writeWhitespace (lvl : Nat) (v : String) (g : GenState) :
    Preserves g (writeWhitespace lvl v g) := by
  unfold writeWhitespace
  split
  · exact Preserves.refl g
  · exact Preserves_writeStringLiteral g lvl _

theorem Preserves_writeWhitespaceTrailer (lvl : Nat) (ts : TrailingSpace) (g : GenState) :
    Preserves g (writeWhitespaceTrailer lvl ts g) := by
  unfold writeWhitespaceTrailer
  split
  · exact Preserves.refl g
  · exact Preserves_writeStringLiteral g lvl _

theorem Preserves_writeComment (lvl : Nat) (c : String) (g : GenState) :
    Preserves g (writeComment lvl c g) := by
  unfold writeComment
  exact (((Preserves.refl g).writeStringLiteral_r _ _).trans
    (Preserves_writeText lvl c _)).writeStringLiteral_r _ _

theorem Preserves_writeChildrenExpression (lvl : Nat) (g : GenState) :
    Preserves g (writeChildrenExpression lvl g) := by
  unfold writeChildrenExpression
  exact ((Preserves.refl g).writeIndent_r _ _).writeErrorHandler_r _

theorem Preserves_writeGoCode (lvl : Nat) (e : Expression) (g : GenState) :
    Preserves g (writeGoCode lvl e g) := by
  unfold writeGoCode
  split
  · exact Preserves.refl g
  · exact ((Preserves.refl g).writeIndent_r _ _).sourceMapAdd_r _ _

theorem Preserves_writeStringExpression (lvl : Nat) (e : Expression) (g : GenState) :
    Preserves g (writeStringExpression lvl e g) := by
  unfold writeStringExpression
  split
  · exact Preserves.refl g
  · exact (((((((Preserves.refl g).createVariableName_r.writeIndent_r _ _).writeIndent_r _
      _).write_r _).sourceMapAdd_r _ _).write_r _).writeExpressionErrorHandler_r _
      _).writeIndent_r _ _ |>.writeErrorHandler_r _

theorem Preserves_writeAttributeKey (lvl : Nat) (key : AttributeKey) (g : GenState) :
    Preserves g (writeAttributeKey lvl key g) := by
  cases key with
  | ConstantAttributeKey nm => exact Preserves_writeStringLiteral g lvl _
  | ExpressionAttributeKey e =>
    exact (((((((Preserves.refl g).createVariableName_r.writeIndent_r _ _).writeIndent_r _
      _).write_r _).sourceMapAdd_r _ _).write_r _).writeExpressionErrorHandler_r _
      _).writeIndent_r _ _ |>.writeErrorHandler_r _

theorem Preserves.writeAttributeKey_r {g0 g : GenState} (h : Preserves g0 g) (lvl : Nat)
    (key : AttributeKey) : Preserves g0 (writeAttributeKey lvl key g) :=
  h.trans (Preserves_writeAttributeKey lvl key g)

theorem Preserves_writeBoolConstantAttribute (lvl : Nat) (key : AttributeKey) (g : GenState) :
    Preserves g (writeBoolConstantAttribute lvl key g) :=
  Preserves_writeAttributeKey lvl key g

theorem Preserves_writeConstantAttribute (lvl : Nat) (key : AttributeKey) (v : String)
    (sq : Bool) (g : GenState) : Preserves g (writeConstantAttribute lvl key v sq g) := by
  unfold writeConstantAttribute
  exact ((Preserves.refl g).writeAttributeKey_r _ _).writeStringLiteral_r _ _

theorem Preserves_writeBoolExpressionAttribute (lvl : Nat) (key : AttributeKey) (e : Expression)
    (g : GenState) : Preserves g (writeBoolExpressionAttribute lvl key e g) := by
  unfold writeBoolExpressionAttribute
  exact (((((Preserves.refl g).writeIndent_r _ _).write_r _).sourceMapAdd_r _ _).write_r
    _).writeAttributeKey_r _ _ |>.writeIndent_r _ _

theorem Preserves_writeExpressionAttributeValueURL (lvl : Nat) (e : Expression) (g : GenState) :
    Preserves g (writeExpressionAttributeValueURL lvl e g) := by
  unfold writeExpressionAttributeValueURL
  exact (((((((Preserves.refl g).createVariableName_r.writeIndent_r _ _).writeIndent_r _
    _).write_r _).sourceMapAdd_r _ _).write_r _).writeExpressionErrorHandler_r _
    _).writeIndent_r _ _ |>.writeErrorHandler_r _

theorem Preserves_writeExpressionAttributeValueScript (lvl : Nat) (e : Expression)
    (g : GenState) : Preserves g (writeExpressionAttributeValueScript lvl e g) := by
  unfold writeExpressionAttributeValueScript
  exact ((((((Preserves.refl g).createVariableName_r.writeIndent_r _ _).write_r
    _).sourceMapAdd_r _ _).write_r _).writeIndent_r _ _).writeErrorHandler_r _

theorem Preserves_writeExpressionAttributeValueDefault (lvl : Nat) (e : Expression)
    (g : GenState) : Preserves g (writeExpressionAttributeValueDefault lvl e g) := by
  unfold writeExpressionAttributeValueDefault
  exact (((((((Preserves.refl g).createVariableName_r.writeIndent_r _ _).writeIndent_r _
    _).write_r _).sourceMapAdd_r _ _).write_r _).writeExpressionErrorHandler_r _
    _).writeIndent_r _ _ |>.writeErrorHandler_r _

theorem Preserves_writeExpressionAttributeValueStyle (lvl : Nat) (e : Expression)
    (g : GenState) : Preserves g (writeExpressionAttributeValueStyle lvl e g) := by
  unfold writeExpressionAttributeValueStyle
  exact (((((((Preserves.refl g).createVariableName_r.writeIndent_r _ _).writeIndent_r _
    _).write_r _).sourceMapAdd_r _ _).write_r _).writeExpressionErrorHandler_r _
    _).writeIndent_r _ _ |>.writeErrorHandler_r _

theorem Preserves_writeExpressionAttribute (lvl : Nat) (en : String) (key : AttributeKey)
    (e : Expression) (g : GenState) : Preserves g (writeExpressionAttribute lvl en key e g) := by
  simp only [writeExpressionAttribute]
  have hbase := ((Preserves.refl g).writeAttributeKey_r lvl key).writeStringLiteral_r lvl "=\\\""
  split
  · exact (hbase.trans (Preserves_writeExpressionAttributeValueURL lvl e
      _)).writeStringLiteral_r _ _
  · split
    · exact (hbase.trans (Preserves_writeExpressionAttributeValueScript lvl e
        _)).writeStringLiteral_r _ _
    · split
      · exact (hbase.trans (Preserves_writeExpressionAttributeValueStyle lvl e
          _)).writeStringLiteral_r _ _
      · exact (hbase.trans (Preserves_writeExpressionAttributeValueDefault lvl e
          _)).writeStringLiteral_r _ _

theorem Preserves_writeSpreadAttributes (lvl : Nat) (e : Expression) (g : GenState) :
    Preserves g (writeSpreadAttributes lvl e g) := by
  unfold writeSpreadAttributes
  exact ((((Preserves.refl g).writeIndent_r _ _).write_r _).sourceMapAdd_r _ _).write_r _
    |>.writeErrorHandler_r _

mutual

theorem Preserves_writeElementAttributes (lvl : Nat) (name : String) :
    ∀ (attrs : List Attribute) (g : GenState),
      Preserves g (writeElementAttributes lvl name attrs g)
  | [], g => by
    simp only [writeElementAttributes]
    exact Preserves.refl g
  | attr :: rest, g => by
    cases attr with
    | BoolConstantAttribute key =>
      simp only [writeElementAttributes]
      exact (Preserves_writeBoolConstantAttribute lvl key g).trans
        (Preserves_writeElementAttributes lvl name rest _)
    | ConstantAttribute key v sq =>
      simp only [writeElementAttributes]
      exact (Preserves_writeConstantAttribute lvl key v sq g).trans
        (Preserves_writeElementAttributes lvl name rest _)
    | BoolExpressionAttribute key e =>
      simp only [writeElementAttributes]
      exact (Preserves_writeBoolExpressionAttribute lvl key e g).trans
        (Preserves_writeElementAttributes lvl name rest _)
    | ExpressionAttribute key e =>
      simp only [writeElementAttributes]
      exact (Preserves_writeExpressionAttribute lvl name key e g).trans
        (Preserves_writeElementAttributes lvl name rest _)
    | SpreadAttributes e =>
      simp only [writeElementAttributes]
      exact (Preserves_writeSpreadAttributes lvl e g).trans
        (Preserves_writeElementAttributes lvl name rest _)
    | ConditionalAttribute e ta fa =>
      simp only [writeElementAttributes]
      exact (Preserves_writeConditionalAttribute lvl name e ta fa g).trans
        (Preserves_writeElementAttributes lvl name rest _)
termination_by attrs g => 2 * sizeOf attrs

theorem Preserves_writeConditionalAttribute (lvl : Nat) (name : String) (e : Expression)
    (ta fa : List Attribute) (g : GenState) :
    Preserves g (writeConditionalAttribute lvl name e ta fa g) := by
  simp only [writeConditionalAttribute]
  split
  · exact ((((((((Preserves.refl g).writeIndent_r _ _).write_r _).sourceMapAdd_r _ _).write_r
      _).trans (Preserves_writeElementAttributes (lvl + 1) name ta _)).writeIndent_r _ _).trans
      (Preserves_writeElementAttributes (lvl + 1) name fa _)).writeIndent_r _ _
  · exact (((((Preserves.refl g).writeIndent_r _ _).write_r _).sourceMapAdd_r _ _).write_r
      _).trans (Preserves_writeElementAttributes (lvl + 1) name ta _) |>.writeIndent_r _ _
termination_by 2 * (sizeOf ta + sizeOf fa) + 1

end

theorem Preserves_writeAttributeCSS (lvl : Nat) (key : AttributeKey) (e : Expression)
    (g : GenState) : Preserves g (writeAttributeCSS lvl key e g).1 := by
  simp only [writeAttributeCSS]
  split
  · exact Preserves.refl g
  · exact ((((Preserves.refl g).createVariableName_r.writeIndent_r _ _).write_r
      _).sourceMapAdd_r _ _).write_r _ |>.writeIndent_r _ _ |>.writeErrorHandler_r _

theorem Preserves_writeAttributesCSS :
    ∀ (lvl : Nat) (attrs : List Attribute) (g : GenState),
      Preserves g (writeAttributesCSS lvl attrs g).1
  | lvl, [], g => by
    simp only [writeAttributesCSS]
    exact Preserves.refl g
  | lvl, Attribute.BoolConstantAttribute key :: rest, g => by
    simp only [writeAttributesCSS]
    exact Preserves_writeAttributesCSS lvl rest g
  | lvl, Attribute.ConstantAttribute key v sq :: rest, g => by
    simp only [writeAttributesCSS]
    exact Preserves_writeAttributesCSS lvl rest g
  | lvl, Attribute.BoolExpressionAttribute key e :: rest, g => by
    simp only [writeAttributesCSS]
    exact Preserves_writeAttributesCSS lvl rest g
  | lvl, Attribute.ExpressionAttribute key e :: rest, g => by
    simp only [writeAttributesCSS]
    cases hx : (writeAttributeCSS lvl key e g).2 with
    | some ke =>
      simp only [hx]
      exact (Preserves_writeAttributeCSS lvl key e g).trans
        (Preserves_writeAttributesCSS lvl rest _)
    | none =>
      simp only [hx]
      exact (Preserves_writeAttributeCSS lvl key e g).trans
        (Preserves_writeAttributesCSS lvl rest _)
  | lvl, Attribute.SpreadAttributes e :: rest, g => by
    simp only [writeAttributesCSS]
    exact Preserves_writeAttributesCSS lvl rest g
  | lvl, Attribute.ConditionalAttribute e ta fa :: rest, g => by
    simp only [writeAttributesCSS]
    exact ((Preserves_writeAttributesCSS lvl ta g).trans
      (Preserves_writeAttributesCSS lvl fa _)).trans (Preserves_writeAttributesCSS lvl rest _)
termination_by lvl attrs g => sizeOf attrs
decreasing_by
  all_goals (simp only [List.cons.sizeOf_spec, Attribute.ConditionalAttribute.sizeOf_spec]; omega)

theorem Preserves_writeElementScript (lvl : Nat) (attrs : List Attribute) (g : GenState) :
    Preserves g (writeElementScript lvl attrs g) := by
  simp only [writeElementScript]
  split
  · exact Preserves.refl g
  · exact ((Preserves.refl g).writeIndent_r _ _).writeErrorHandler_r _

theorem Preserves_writeRawElement (lvl : Nat) (name : String) (attrs : List Attribute)
    (contents : String) (g : GenState) : Preserves g (writeRawElement lvl name attrs contents g) := by
  simp only [writeRawElement]
  split
  · exact ((Preserves_writeStringLiteral g lvl _).trans
      (Preserves_writeText lvl contents _)).writeStringLiteral_r _ _
  · exact ((((Preserves_writeElementScript lvl attrs g).writeStringLiteral_r _ _).trans
      (Preserves_writeElementAttributes lvl name attrs _)).writeStringLiteral_r _ _).trans
      (Preserves_writeText lvl contents _) |>.writeStringLiteral_r _ _

theorem Preserves_writeScriptContents (lvl : Nat) (c : ScriptContents) (g : GenState) :
    Preserves g (writeScriptContents lvl c g) := by
  cases c with
  | value s =>
    simp only [writeScriptContents]
    split
    · exact Preserves.refl g
    · exact Preserves_writeText lvl s g
  | goCode e trailing inside =>
    simp only [writeScriptContents]
    split
    · exact ((((((Preserves.refl g).createVariableName_r.writeIndent_r _ _).write_r
        _).sourceMapAdd_r _ _).write_r _).writeExpressionErrorHandler_r _ _
        |>.writeIndent_r _ _ |>.writeErrorHandler_r _).trans
        (Preserves_writeText lvl trailing.str _)
    · exact (((((Preserves.refl g).createVariableName_r.writeIndent_r _ _).write_r
        _).sourceMapAdd_r _ _).write_r _).writeExpressionErrorHandler_r _ _
        |>.writeIndent_r _ _ |>.writeErrorHandler_r _

theorem Preserves_writeScriptContentsFold (lvl : Nat) (cs : List ScriptContents) :
    ∀ g : GenState, Preserves g (cs.foldl (fun g c => writeScriptContents lvl c g) g) := by
  induction cs with
  | nil => intro g; exact Preserves.refl g
  | cons c rest ih =>
    intro g
    simp only [List.foldl_cons]
    exact (Preserves_writeScriptContents lvl c g).trans (ih _)

theorem Preserves_writeScriptElement (lvl : Nat) (attrs : List Attribute)
    (contents : List ScriptContents) (g : GenState) :
    Preserves g (writeScriptElement lvl attrs contents g) := by
  simp only [writeScriptElement]
  split
  · exact ((Preserves_writeStringLiteral g lvl _).trans
      (Preserves_writeScriptContentsFold lvl contents _)).writeStringLiteral_r _ _
  · exact ((((Preserves_writeElementScript lvl attrs g).writeStringLiteral_r _ _).trans
      (Preserves_writeElementAttributes lvl "script" attrs _)).writeStringLiteral_r _ _).trans
      (Preserves_writeScriptContentsFold lvl contents _) |>.writeStringLiteral_r _ _

theorem Preserves_writeSelfClosingTemplElementExpression (lvl : Nat) (e : Expression)
    (g : GenState) : Preserves g (writeSelfClosingTemplElementExpression lvl e g) := by
  unfold writeSelfClosingTemplElementExpression
  exact ((((Preserves.refl g).writeIndent_r _ _).write_r _).sourceMapAdd_r _ _).write_r _
    |>.writeErrorHandler_r _

theorem Preserves_writeCallTemplateExpression (lvl : Nat) (e : Expression) (g : GenState) :
    Preserves g (writeCallTemplateExpression lvl e g) := by
  unfold writeCallTemplateExpression
  exact ((((Preserves.refl g).writeIndent_r _ _).write_r _).sourceMapAdd_r _ _).write_r _
    |>.writeErrorHandler_r _

theorem Preserves_writeTemplBuffer (lvl : Nat) (g : GenState) :
    Preserves g (writeTemplBuffer lvl g) := by
  unfold writeTemplBuffer
  exact ((((((((Preserves.refl g).writeIndent_r _ _).writeIndent_r _ _).writeIndent_r _
    _).writeIndent_r _ _).writeIndent_r _ _).writeIndent_r _ _).writeIndent_r _
    _).writeIndent_r _ _ |>.writeIndent_r _ _

theorem Preserves_writeElementOpen (lvl : Nat) (name : String) (attrs : List Attribute)
    (g : GenState) : Preserves g (writeElementOpen lvl name attrs g) := by
  simp only [writeElementOpen]
  split
  · exact Preserves_writeStringLiteral g lvl _
  · exact (((Preserves_writeAttributesCSS lvl attrs g).trans
      (Preserves_writeElementScript lvl _ _)).writeStringLiteral_r _ _).trans
      (Preserves_writeElementAttributes lvl name _ _) |>.writeStringLiteral_r _ _

mutual

theorem Preserves_writeNodes (indentLevel : Nat) (nodes : List Node) (next : Option Node)
    (g : GenState) : Preserves g (writeNodes indentLevel nodes next g) := by
  match nodes with
  | [] =>
    simp only [writeNodes]
    exact Preserves.refl g
  | curr :: rest =>
    rw [writeNodes.eq_def]
    exact (Preserves_writeNode indentLevel curr _ g).trans
      (Preserves_writeNodes indentLevel rest next _)
termination_by 16 * sizeOf nodes + 1

theorem Preserves_writeNodeDispatch (indentLevel : Nat) (current : Node) (next : Option Node)
    (g : GenState) : Preserves g (writeNodeDispatch indentLevel current next g) := by
  cases current with
  | DocType v =>
    simp only [writeNodeDispatch]
    exact Preserves_writeDocType indentLevel v g
  | Element name attrs children tr =>
    simp only [writeNodeDispatch]
    exact Preserves_writeElement indentLevel name attrs children g
  | HTMLComment c =>
    simp only [writeNodeDispatch]
    exact Preserves_writeComment indentLevel c g
  | ChildrenExpression =>
    simp only [writeNodeDispatch]
    exact Preserves_writeChildrenExpression indentLevel g
  | RawElement name attrs contents =>
    simp only [writeNodeDispatch]
    exact Preserves_writeRawElement indentLevel name attrs contents g
  | ScriptElement attrs contents =>
    simp only [writeNodeDispatch]
    exact Preserves_writeScriptElement indentLevel attrs contents g
  | ForExpression e children =>
    simp only [writeNodeDispatch]
    exact Preserves_writeForExpression indentLevel e children next g
  | CallTemplateExpression e =>
    simp only [writeNodeDispatch]
    exact Preserves_writeCallTemplateExpression indentLevel e g
  | TemplElementExpression e children =>
    simp only [writeNodeDispatch]
    exact Preserves_writeTemplElementExpression indentLevel e children g
  | IfExpression e t elifs els =>
    simp only [writeNodeDispatch]
    exact Preserves_writeIfExpression indentLevel e t elifs els next g
  | SwitchExpression e cs =>
    simp only [writeNodeDispatch]
    exact Preserves_writeSwitchExpression indentLevel e cs next g
  | StringExpression e tr =>
    simp only [writeNodeDispatch]
    exact Preserves_writeStringExpression indentLevel e g
  | GoCode e tr =>
    simp only [writeNodeDispatch]
    exact Preserves_writeGoCode indentLevel e g
  | Whitespace v =>
    simp only [writeNodeDispatch]
    exact Preserves_writeWhitespace indentLevel v g
  | Text v tr =>
    simp only [writeNodeDispatch]
    exact Preserves_writeText indentLevel v g
  | GoComment c =>
    simp only [writeNodeDispatch]
    exact Preserves.refl g
termination_by 16 * sizeOf current + 5

theorem Preserves_writeNode (indentLevel : Nat) (current : Node) (next : Option Node)
    (g : GenState) : Preserves g (writeNode indentLevel current next g) := by
  simp only [writeNode]
  have hd := Preserves_writeNodeDispatch indentLevel current next g
  split
  · split
    · exact hd.trans (Preserves_writeWhitespaceTrailer indentLevel _ _)
    · exact hd
  · exact hd
termination_by 16 * sizeOf current + 6

theorem Preserves_writeElement (indentLevel : Nat) (name : String) (attrs : List Attribute)
    (children : List Node) (g : GenState) :
    Preserves g (writeElement indentLevel name attrs children g) := by
  simp only [writeElement]
  split
  · exact Preserves_writeElementOpen indentLevel name attrs g
  · exact ((Preserves_writeElementOpen indentLevel name attrs g).trans
      (Preserves_writeNodes indentLevel (stripWhitespace children) none
        _)).writeStringLiteral_r _ _
termination_by 16 * sizeOf children + 3
decreasing_by
  all_goals (have h1 := sizeOf_stripWhitespace_le children; omega)

theorem Preserves_writeIfExpression (indentLevel : Nat) (e : Expression)
    (thenNodes : List Node) (elseIfs : List (Expression × List Node)) (elseNodes : List Node)
    (nextNode : Option Node) (g : GenState) :
    Preserves g (writeIfExpression indentLevel e thenNodes elseIfs elseNodes nextNode g) := by
  simp only [writeIfExpression]
  split
  · exact ((((((((Preserves.refl g).writeIndent_r _ _).write_r _).sourceMapAdd_r _ _).write_r
      _).trans (Preserves_writeNodes (indentLevel + 1)
        (stripLeadingAndTrailingWhitespace thenNodes) nextNode _)).trans
      (Preserves_writeElseIfs indentLevel elseIfs nextNode _)).writeIndent_r _ _).trans
      (Preserves_writeNodes (indentLevel + 1) (stripLeadingAndTrailingWhitespace elseNodes)
        nextNode _) |>.writeIndent_r _ _
  · exact (((((((Preserves.refl g).writeIndent_r _ _).write_r _).sourceMapAdd_r _ _).write_r
      _).trans (Preserves_writeNodes (indentLevel + 1)
        (stripLeadingAndTrailingWhitespace thenNodes) nextNode _)).trans
      (Preserves_writeElseIfs indentLevel elseIfs nextNode _)).writeIndent_r _ _
termination_by 16 * (sizeOf thenNodes + sizeOf elseIfs + sizeOf elseNodes) + 3
decreasing_by
  all_goals
    (have h1 := sizeOf_stripLeadingAndTrailingWhitespace_le thenNodes
     have h2 := sizeOf_stripLeadingAndTrailingWhitespace_le elseNodes
     have h3 := one_le_sizeOf_list thenNodes
     have h4 := one_le_sizeOf_list elseNodes
     omega)

theorem Preserves_writeElseIfs (indentLevel : Nat) (elseIfs : List (Expression × List Node))
    (nextNode : Option Node) (g : GenState) :
    Preserves g (writeElseIfs indentLevel elseIfs nextNode g) := by
  match elseIfs with
  | [] =>
    simp only [writeElseIfs]
    exact Preserves.refl g
  | (e, body) :: rest =>
    simp only [writeElseIfs]
    exact (((((Preserves.refl g).writeIndent_r _ _).write_r _).sourceMapAdd_r _ _).write_r
      _).trans (Preserves_writeNodes (indentLevel + 1)
        (stripLeadingAndTrailingWhitespace body) nextNode _) |>.trans
      (Preserves_writeElseIfs indentLevel rest nextNode _)
termination_by 16 * sizeOf elseIfs + 2
decreasing_by
  all_goals
    (have h1 := sizeOf_stripLeadingAndTrailingWhitespace_le body
     try simp only [List.cons.sizeOf_spec, Prod.mk.sizeOf_spec]
     omega)

theorem Preserves_writeSwitchExpression (indentLevel : Nat) (e : Expression)
    (cs : List (Expression × List Node)) (next : Option Node) (g : GenState) :
    Preserves g (writeSwitchExpression indentLevel e cs next g) := by
  simp only [writeSwitchExpression]
  exact (((((Preserves.refl g).writeIndent_r _ _).write_r _).sourceMapAdd_r _ _).write_r
    _).trans (Preserves_writeSwitchCases indentLevel cs next _) |>.writeIndent_r _ _
termination_by 16 * sizeOf cs + 3

theorem Preserves_writeSwitchCases (indentLevel : Nat) (cs : List (Expression × List Node))
    (next : Option Node) (g : GenState) :
    Preserves g (writeSwitchCases indentLevel cs next g) := by
  match cs with
  | [] =>
    simp only [writeSwitchCases]
    exact Preserves.refl g
  | c :: rest =>
    simp only [writeSwitchCases]
    exact (((Preserves.refl g).writeIndent_r _ _).sourceMapAdd_r _ _).trans
      (Preserves_writeNodes (indentLevel + 1) (stripLeadingAndTrailingWhitespace c.2) next _)
      |>.trans (Preserves_writeSwitchCases indentLevel rest next _)
termination_by 16 * sizeOf cs + 2
decreasing_by
  all_goals
    (have h1 := sizeOf_stripLeadingAndTrailingWhitespace_le c.2
     have h2 := sizeOf_snd_lt c
     try simp only [List.cons.sizeOf_spec, Prod.mk.sizeOf_spec]
     omega)

theorem Preserves_writeForExpression (indentLevel : Nat) (e : Expression)
    (children : List Node) (next : Option Node) (g : GenState) :
    Preserves g (writeForExpression indentLevel e children next g) := by
  simp only [writeForExpression]
  exact (((((Preserves.refl g).writeIndent_r _ _).write_r _).sourceMapAdd_r _ _).write_r
    _).trans (Preserves_writeNodes (indentLevel + 1)
      (stripLeadingAndTrailingWhitespace children) next _) |>.writeIndent_r _ _
termination_by 16 * sizeOf children + 3
decreasing_by
  all_goals (have h1 := sizeOf_stripLeadingAndTrailingWhitespace_le children; omega)

theorem Preserves_writeTemplElementExpression (indentLevel : Nat) (e : Expression)
    (children : List Node) (g : GenState) :
    Preserves g (writeTemplElementExpression indentLevel e children g) := by
  simp only [writeTemplElementExpression]
  split
  · exact Preserves_writeSelfClosingTemplElementExpression indentLevel e g
  · exact Preserves_writeBlockTemplElementExpression indentLevel e children g
termination_by 16 * sizeOf children + 4

theorem Preserves_writeBlockTemplElementExpression (indentLevel : Nat) (e : Expression)
    (children : List Node) (g : GenState) :
    Preserves g (writeBlockTemplElementExpression indentLevel e children g) := by
  simp only [writeBlockTemplElementExpression]
  exact (((((Preserves.refl g).createVariableName_r.writeIndent_r _ _).writeIndent_r _ _).trans
    (Preserves_writeTemplBuffer (indentLevel + 1) _)).writeIndent_r _ _).trans
    (Preserves_writeNodes (indentLevel + 1) (stripLeadingAndTrailingWhitespace children) none _)
    |>.writeIndent_r _ _ |>.writeIndent_r _ _ |>.writeIndent_r _ _ |>.write_r _
    |>.sourceMapAdd_r _ _ |>.write_r _ |>.writeErrorHandler_r _
termination_by 16 * sizeOf children + 3
decreasing_by
  all_goals (have h1 := sizeOf_stripLeadingAndTrailingWhitespace_le children; omega)

end

theorem Preserves_setChildrenVar (g : GenState) (v : String) :
    Preserves g { g with childrenVar := v } :=
  ⟨rfl, rfl, rfl, le_refl _, "", by apply String.ext; simp [String.data_append]⟩

theorem Preserves_writeCSSProperties (lvl : Nat) (props : List CSSProperty) :
    ∀ g : GenState, Preserves g (writeCSSProperties lvl props g) := by
  induction props with
  | nil =>
    intro g
    simp only [writeCSSProperties]
    exact Preserves.refl g
  | cons p rest ih =>
    intro g
    cases p with
    | ConstantCSSProperty name value =>
      simp only [writeCSSProperties]
      exact ((Preserves.refl g).writeIndent_r _ _).trans (ih _)
    | ExpressionCSSProperty name value =>
      simp only [writeCSSProperties]
      exact ((((Preserves.refl g).writeIndent_r _ _).write_r _).sourceMapAdd_r _ _).write_r _
        |>.trans (ih _)

/-- Whether a pass-through Go expression ends in a line comment — the
branch condition of `writeGoExpression`. -/
def goExprLastLineComment (e : Expression) : Bool :=
  startsWithSlashSlash ((splitOnChar '\n' e.Value.data).getLast?.getD [])

theorem funcTail_braces (g gmid : GenState) (src : Range) (r : Range)
    (h : ∃ s, gmid.out = ((g.write "func ").1).out ++ s) :
    ∃ q, ((((gmid.writeIndent 1 "\x7d\n").1).writeIndent 0 "\x7d\n\n").1.addSymbolRange src r).out
      = g.out ++ ("func " ++ q) ++ "\x7d\n\x7d\n\n" := by
  obtain ⟨s, hs⟩ := h
  refine ⟨s ++ "\t", ?_⟩
  have h1 : ((((gmid.writeIndent 1 "\x7d\n").1).writeIndent 0 "\x7d\n\n").1.addSymbolRange
      src r).out = gmid.out ++ (tabs 1 ++ "\x7d\n") ++ (tabs 0 ++ "\x7d\n\n") := rfl
  have h2 : ((g.write "func ").1).out = g.out ++ "func " := rfl
  rw [h1, hs, h2]
  apply String.ext
  have e1 : (tabs 1 ++ "\x7d\n").data = '\t' :: "\x7d\n".data := by decide
  have e2 : (tabs 0 ++ "\x7d\n\n").data = "\x7d\n\n".data := by decide
  have e3 : "\x7d\n".data ++ "\x7d\n\n".data = "\x7d\n\x7d\n\n".data := by decide
  have e4 : ("\t" : String).data = ['\t'] := by decide
  simp [String.data_append, List.append_assoc, e1, e2, e4, ← e3]

theorem funcTail_template (g gB : GenState) (src : Range) (r : Range) (cb : String)
    (full : String) (hfull : ")\n" ++ cb = full)
    (h : ∃ s, gB.out = ((g.write "func ").1).out ++ s) :
    ∃ q, ((((gB.writeIndent 1 "\x7d)\n").1).writeIndent 0 cb).1.addSymbolRange src r).out
      = g.out ++ ("func " ++ q) ++ full := by
  subst hfull
  obtain ⟨s, hs⟩ := h
  refine ⟨s ++ "\t\x7d", ?_⟩
  have h1 : ((((gB.writeIndent 1 "\x7d)\n").1).writeIndent 0 cb).1.addSymbolRange src r).out
      = gB.out ++ (tabs 1 ++ "\x7d)\n") ++ (tabs 0 ++ cb) := rfl
  have h2 : ((g.write "func ").1).out = g.out ++ "func " := rfl
  rw [h1, hs, h2]
  apply String.ext
  have e1 : (tabs 1 ++ "\x7d)\n").data = '\t' :: '\x7d' :: ")\n".data := by decide
  have e2 : (tabs 0 ++ cb).data = cb.data := by
    apply congrArg
    apply String.ext
    simp [String.data_append]
    rfl
  have e4 : ("\t\x7d" : String).data = ['\t', '\x7d'] := by decide
  simp [String.data_append, List.append_assoc, e1, e2, e4]

theorem writeCSS_out (n : CSSTemplate) (g : GenState) :
    ∃ q, (writeCSS n g).out = g.out ++ ("func " ++ q) ++ "\x7d\n\x7d\n\n" := by
  simp only [writeCSS]
  apply funcTail_braces
  exact ((((((((Preserves.refl ((g.write "func ").1)).write_r n.Expr.Value).sourceMapAdd_r
    n.Expr _).write_r _).writeIndent_r _ _).trans (Preserves_writeCSSProperties 1 n.Properties
    _)).writeIndent_r _ _).writeIndent_r _ _).writeIndent_r _ _ |>.writeIndent_r _ _ |>.2.2.2.2

theorem writeScript_out (t : ScriptTemplate) (g : GenState) :
    ∃ q, (writeScript t g).out = g.out ++ ("func " ++ q) ++ "\x7d\n\x7d\n\n" := by
  simp only [writeScript]
  apply funcTail_braces
  exact (((((((((((Preserves.refl ((g.write "func ").1)).write_r t.Name.Value).sourceMapAdd_r
    t.Name _).write_r _).write_r t.Parameters.Value).sourceMapAdd_r t.Parameters _).write_r
    _).writeIndent_r _ _).writeIndent_r _ _).writeIndent_r _ _).writeIndent_r _
    _).writeIndent_r _ _ |>.2.2.2.2

theorem templateTailIf (g gA : GenState) (nodeIdx : Nat) (src : Range) (r : Range)
    (htf : gA.tf = g.tf)
    (h : ∃ s, gA.out = ((g.write "func ").1).out ++ s) :
    (g.tf.Nodes.length ≤ nodeIdx + 1 →
      ∃ q, ((((gA.writeIndent 1 "\x7d)\n").1).writeIndent 0
          (if nodeIdx + 1 ≥ ((gA.writeIndent 1 "\x7d)\n").1).tf.Nodes.length then "\x7d\n"
           else "\x7d\n\n")).1.addSymbolRange src r).out
        = g.out ++ ("func " ++ q) ++ ")\n\x7d\n") ∧
    (nodeIdx + 1 < g.tf.Nodes.length →
      ∃ q, ((((gA.writeIndent 1 "\x7d)\n").1).writeIndent 0
          (if nodeIdx + 1 ≥ ((gA.writeIndent 1 "\x7d)\n").1).tf.Nodes.length then "\x7d\n"
           else "\x7d\n\n")).1.addSymbolRange src r).out
        = g.out ++ ("func " ++ q) ++ ")\n\x7d\n\n") := by
  have hlen : ((gA.writeIndent 1 "\x7d)\n").1).tf.Nodes.length = g.tf.Nodes.length := by
    have h0 : ((gA.writeIndent 1 "\x7d)\n").1).tf = gA.tf := rfl
    rw [h0, htf]
  constructor
  · intro hle
    rw [if_pos (by rw [ge_iff_le, hlen]; exact hle)]
    exact funcTail_template g gA src r "\x7d\n" ")\n\x7d\n" (by decide) h
  · intro hlt
    rw [if_neg (by rw [ge_iff_le, hlen]; omega)]
    exact funcTail_template g gA src r "\x7d\n\n" ")\n\x7d\n\n" (by decide) h

theorem writeTemplate_out (nodeIdx : Nat) (t : HTMLTemplate) (g : GenState) :
    (g.tf.Nodes.length ≤ nodeIdx + 1 →
      ∃ q, (writeTemplate nodeIdx t g).out = g.out ++ ("func " ++ q) ++ ")\n\x7d\n") ∧
    (nodeIdx + 1 < g.tf.Nodes.length →
      ∃ q, (writeTemplate nodeIdx t g).out = g.out ++ ("func " ++ q) ++ ")\n\x7d\n\n") := by
  simp only [writeTemplate]
  refine templateTailIf g _ nodeIdx t.TRange _ ?_ ?_
  · exact Preserves.refl g |>.write_r "func " |>.write_r t.Expr.Value
      |>.sourceMapAdd_r t.Expr _ |>.write_r _ |>.writeIndent_r _ _ |>.writeIndent_r _ _
      |>.writeIndent_r _ _ |>.writeIndent_r _ _ |>.writeIndent_r _ _
      |>.trans (Preserves_writeTemplBuffer 2 _) |>.writeIndent_r _ _
      |>.createVariableName_r |>.trans (Preserves_setChildrenVar _ _)
      |>.writeIndent_r _ _ |>.writeIndent_r _ _ |>.writeIndent_r _ _ |>.writeIndent_r _ _
      |>.writeIndent_r _ _
      |>.trans (Preserves_writeNodes 2 (stripWhitespace t.Children) none _)
      |>.writeIndent_r _ _ |>.1
  · exact Preserves.refl ((g.write "func ").1) |>.write_r t.Expr.Value
      |>.sourceMapAdd_r t.Expr _ |>.write_r _ |>.writeIndent_r _ _ |>.writeIndent_r _ _
      |>.writeIndent_r _ _ |>.writeIndent_r _ _ |>.writeIndent_r _ _
      |>.trans (Preserves_writeTemplBuffer 2 _) |>.writeIndent_r _ _
      |>.createVariableName_r |>.trans (Preserves_setChildrenVar _ _)
      |>.writeIndent_r _ _ |>.writeIndent_r _ _ |>.writeIndent_r _ _ |>.writeIndent_r _ _
      |>.writeIndent_r _ _
      |>.trans (Preserves_writeNodes 2 (stripWhitespace t.Children) none _)
      |>.writeIndent_r _ _ |>.2.2.2.2

theorem writeGoExpression_out (n : Expression) (g : GenState) :
    (goExprLastLineComment n = false →
      (writeGoExpression n g).out = g.out ++ n.Value ++ "\n\n") ∧
    (goExprLastLineComment n = true →
      (writeGoExpression n g).out = g.out ++ n.Value ++ "\n") := by
  constructor
  · intro h
    have h2 : startsWithSlashSlash ((splitOnChar '\n' n.Value.data).getLast?.getD []) = false := h
    simp only [writeGoExpression]
    split
    next hc => simp [h2] at hc
    next => rfl
  · intro h
    simp only [writeGoExpression]
    split
    next => rfl
    next hc => exact absurd h hc

def tfC7 : TemplateFile :=
  { Header := [], Package := ⟨"package main", emptyRange⟩,
    Nodes := [.CSSTemplateNode ⟨⟨"red()", emptyRange⟩, "red",
      [.ConstantCSSProperty "color" "#ff0000"], emptyRange⟩] }

set_option maxRecDepth 100000 in
/-- C7 counterexample: a file whose final declaration is a CSS template is
emitted with a blank line after that declaration (the CSS writer always
ends with a brace line plus one blank line, and the runtime assignment
follows it), contradicting the claim that no blank line follows the final
declaration. -/
theorem generate_blank_line_after_final_declaration :
    ∃ p, (Generate tfC7 sampleOptions).2
      = p ++ "\x7d\n\nvar _ = templruntime.GeneratedTemplate" :=
  ⟨"// Code generated by templ - DO NOT EDIT.\n\npackage main\n\n//lint:file-ignore SA4006 This context is only used if a nested component is present.\n\nimport \"github.com/a-h/templ\"\nimport templruntime \"github.com/a-h/templ/runtime\"\n\nfunc red() templ.CSSClass \x7b\n\ttempl_7745c5c3_CSSBuilder := templruntime.GetBuilder()\n\ttempl_7745c5c3_CSSBuilder.WriteString(`color:#ff0000;`)\n\ttempl_7745c5c3_CSSID := templ.CSSID(`red`, templ_7745c5c3_CSSBuilder.String())\n\treturn templ.ComponentCSSClass\x7b\n\t\tID: templ_7745c5c3_CSSID,\n\t\tClass: templ.SafeCSS(`.` + templ_7745c5c3_CSSID + `\x7b` + templ_7745c5c3_CSSBuilder.String() + `\x7d`),\n\t\x7d\n", by decide⟩

/-- C7 (amended): each top-level declaration writer appends its own text to
the output and ends it with a fixed suffix. A CSS or script template always
ends with its closing brace line followed by exactly one blank line, even
when it is the final declaration of the file. An HTML template ends with
one blank line exactly when it is not the final node, and with none when it
is. A pass-through Go expression ends with one blank line unless its last
line is a line comment, in which case a single newline is written. The
trailing runtime assignment appends its text with no separation of its own.
Together these give exactly one blank line between consecutive
declarations; the original claim fails only in that a final CSS or script
declaration is still followed by a blank line. -/
theorem declaration_separation (n : CSSTemplate) (t : ScriptTemplate) (i : Nat)
    (ht : HTMLTemplate) (e : Expression) (g : GenState) :
    (∃ q, (writeCSS n g).out = g.out ++ ("func " ++ q) ++ "\x7d\n\x7d\n\n") ∧
    (∃ q, (writeScript t g).out = g.out ++ ("func " ++ q) ++ "\x7d\n\x7d\n\n") ∧
    (g.tf.Nodes.length ≤ i + 1 →
      ∃ q, (writeTemplate i ht g).out = g.out ++ ("func " ++ q) ++ ")\n\x7d\n") ∧
    (i + 1 < g.tf.Nodes.length →
      ∃ q, (writeTemplate i ht g).out = g.out ++ ("func " ++ q) ++ ")\n\x7d\n\n") ∧
    (goExprLastLineComment e = false →
      (writeGoExpression e g).out = g.out ++ e.Value ++ "\n\n") ∧
    (goExprLastLineComment e = true →
      (writeGoExpression e g).out = g.out ++ e.Value ++ "\n") ∧
    (writeBlankAssignmentForRuntimeImport g).out
      = g.out ++ "var _ = templruntime.GeneratedTemplate" :=
  ⟨writeCSS_out n g, writeScript_out t g, (writeTemplate_out i ht g).1,
   (writeTemplate_out i ht g).2, (writeGoExpression_out e g).1,
   (writeGoExpression_out e g).2, rfl⟩

/-- C7 witness: the amended theorem applied at a concrete final template
and a concrete non-comment Go expression. -/
theorem declaration_separation_witness :
    (∃ q, (writeTemplate 0 ⟨⟨"Hello()", emptyRange⟩, [], emptyRange⟩ sampleState).out
      = sampleState.out ++ ("func " ++ q) ++ ")\n\x7d\n") ∧
    (writeGoExpression ⟨"type x = int", emptyRange⟩ sampleState).out
      = sampleState.out ++ "type x = int" ++ "\n\n" :=
  ⟨(declaration_separation ⟨⟨"c()", emptyRange⟩, "c", [], emptyRange⟩
      ⟨⟨"s", emptyRange⟩, ⟨"", emptyRange⟩, "", emptyRange⟩ 0
      ⟨⟨"Hello()", emptyRange⟩, [], emptyRange⟩
      ⟨"type x = int", emptyRange⟩ sampleState).2.2.1 (by decide),
   (declaration_separation ⟨⟨"c()", emptyRange⟩, "c", [], emptyRange⟩
      ⟨⟨"s", emptyRange⟩, ⟨"", emptyRange⟩, "", emptyRange⟩ 0
      ⟨⟨"Hello()", emptyRange⟩, [], emptyRange⟩
      ⟨"type x = int", emptyRange⟩ sampleState).2.2.2.2.1 (by decide)⟩

def openBraceChar : Char := Char.ofNat 123

def closeBraceChar : Char := Char.ofNat 125

/-- Modelled from the spec: `openBraceWithOptionalPadding` — optional
horizontal padding, then an open brace; on failure the input is left
unconsumed. -/
def openBraceWithOptionalPadding (l : List Char) : Bool × List Char :=
  match l.dropWhile (fun c => c = ' ' || c = '\t') with
  | c :: tl => if c = openBraceChar then (true, tl) else (false, l)
  | [] => (false, l)

/-- Modelled from the spec: `closeBraceWithOptionalPadding` — optional
horizontal padding, then a close brace; on failure the input is left
unconsumed. -/
def closeBraceWithOptionalPadding (l : List Char) : Bool × List Char :=
  match l.dropWhile (fun c => c = ' ' || c = '\t') with
  | c :: tl => if c = closeBraceChar then (true, tl) else (false, l)
  | [] => (false, l)

/-- Characters of a qualified identifier chain. -/
def isTemplExprChar (c : Char) : Bool :=
  ('a' ≤ c && c ≤ 'z') || ('A' ≤ c && c ≤ 'Z') || ('0' ≤ c && c ≤ '9') || c = '_' || c = '.'

/-- Scan to the parenthesis matching `depth` already-open ones, returning
the consumed characters and the rest, or `none` when unbalanced. -/
def scanParens : Nat → List Char → List Char → Option (List Char × List Char)
  | _, [], _ => none
  | d, c :: rest, acc =>
    if c = '(' then scanParens (d + 1) rest (c :: acc)
    else if c = ')' then
      if d = 1 then some ((c :: acc).reverse, rest)
      else scanParens (d - 1) rest (c :: acc)
    else scanParens d rest (c :: acc)

/-- Modelled from the spec: `goexpression.TemplExpression` — a call or
qualified identifier chain: identifier characters, then an optional
balanced parenthesised argument list. -/
def parseGoTemplExpression (l : List Char) : Option (String × List Char) :=
  let ident := l.takeWhile isTemplExprChar
  let rest := l.dropWhile isTemplExprChar
  if ident = [] then none
  else
    match rest with
    | '(' :: tl =>
      match scanParens 1 tl ['('] with
      | some (consumed, rest2) => some (String.mk (ident ++ consumed), rest2)
      | none => none
    | _ => some (String.mk ident, rest)

/-- A parsed body node of the templ-element fragment (modelled from the
spec: the body parser is external to the source fragment). -/
inductive PNode where
  | text (s : String)
deriving Repr, DecidableEq

/-- One maximal text chunk: characters up to the first position where the
close-brace parser would match, or the end of input. -/
def textChunkAux : List Char → List Char → List Char × List Char
  | [], acc => (acc.reverse, [])
  | c :: rest, acc =>
    if (closeBraceWithOptionalPadding (c :: rest)).1 then (acc.reverse, c :: rest)
    else textChunkAux rest (c :: acc)

/-- Modelled from the spec: `newTemplateNodeParser(until, name).Parse` —
parse body nodes until the stop parser matches by lookahead or the input
ends; the nodes parsed so far are always returned with a match. -/
def templateNodeParserParse (l : List Char) : List PNode × Bool × List Char :=
  if (closeBraceWithOptionalPadding l).1 then ([], true, l)
  else
    let tc := textChunkAux l []
    if tc.1 = [] then ([], true, l)
    else ([PNode.text (String.mk tc.1)], true, tc.2)

/-- The node built by `templElementExpressionParser.Parse` (the
`TemplElementExpression` struct of the parser package; the expression is
kept as its text). -/
structure TemplElementExpressionNode where
  Expression : String
  Children : List PNode
deriving Repr, DecidableEq

/-- `templElementExpressionParser.Parse` from the parser fragment: the
result node (if any), the matched flag, the error message (if any) and the
remaining input. -/
def templElementExpressionParse (pi : List Char) :
    Option TemplElementExpressionNode × Bool × Option String × List Char :=
  match pi with
  | '@' :: rest =>
    match parseGoTemplExpression rest with
    | none => (some ⟨"", []⟩, true, some "templ element: failed to parse expression", rest)
    | some (expr, rest1) =>
      let ob := openBraceWithOptionalPadding rest1
      if ob.1 = false then (some ⟨expr, []⟩, true, none, rest1)
      else
        let np := templateNodeParserParse ob.2
        if np.2.1 = false then
          (some ⟨expr, np.1⟩, true,
           some ("@" ++ expr ++ ": expected nodes, but none were found"), np.2.2)
        else
          let cb := closeBraceWithOptionalPadding np.2.2
          if cb.1 = false then
            (some ⟨expr, np.1⟩, true,
             some ("@" ++ expr ++ ": missing end (expected \x27\x7d\x27)"), np.2.2)
          else (some ⟨expr, np.1⟩, true, none, cb.2)
  | _ => (none, false, none, pi)

/-- C8: after the `@`-prefixed template expression, if no open brace
follows, the parser returns a self-closing node (no children) with no
error; if an open brace follows but, after the body nodes, no close brace
is found, the parser returns the partially built node with the parsed
children together with an error whose message contains
"missing end (expected \x27\x7d\x27)". -/
theorem templ_element_parser_missing_end (input : List Char) (expr : String)
    (rest1 : List Char) (hgo : parseGoTemplExpression input = some (expr, rest1)) :
    ((openBraceWithOptionalPadding rest1).1 = false →
      templElementExpressionParse ('@' :: input) = (some ⟨expr, []⟩, true, none, rest1)) ∧
    (∀ rest2, openBraceWithOptionalPadding rest1 = (true, rest2) →
      ∀ nodes rest3, templateNodeParserParse rest2 = (nodes, true, rest3) →
      (closeBraceWithOptionalPadding rest3).1 = false →
      templElementExpressionParse ('@' :: input)
        = (some ⟨expr, nodes⟩, true,
           some ("@" ++ expr ++ ": missing end (expected \x27\x7d\x27)"), rest3) ∧
      ∃ pre, "@" ++ expr ++ ": missing end (expected \x27\x7d\x27)"
        = pre ++ "missing end (expected \x27\x7d\x27)") := by
  constructor
  · intro hob
    simp only [templElementExpressionParse, hgo, hob]
    simp
  · intro rest2 hob nodes rest3 hnp hcb
    constructor
    · simp only [templElementExpressionParse, hgo, hob, hnp, hcb]
      simp
    · refine ⟨"@" ++ expr ++ ": ", ?_⟩
      apply String.ext
      have e1 : ": missing end (expected \x27\x7d\x27)".data
          = ": ".data ++ "missing end (expected \x27\x7d\x27)".data := by decide
      simp [String.data_append, List.append_assoc, e1]

/-- C8 witness: the theorem applied to the concrete inputs `@Foo()`
(self-closing, no error) and `@Foo()` followed by an open brace and an
unterminated body (missing-end error with the parsed child). -/
theorem templ_element_parser_missing_end_witness :
    templElementExpressionParse ("@Foo()".data) = (some ⟨"Foo()", []⟩, true, none, []) ∧
    templElementExpressionParse ("@Foo() \x7b x".data)
      = (some ⟨"Foo()", [PNode.text " x"]⟩, true,
         some "@Foo(): missing end (expected \x27\x7d\x27)", []) := by
  constructor
  · exact (templ_element_parser_missing_end "Foo()".data "Foo()" [] (by decide)).1 (by decide)
  · exact ((templ_element_parser_missing_end "Foo() \x7b x".data "Foo()" " \x7b x".data
      (by decide)).2 " x".data (by decide) [PNode.text " x"] [] (by decide) (by decide)).1

/-- Chained target ranges: every entry spans forward, lies between `lo` and
`hi`, and starts no earlier than the previous entry ends. -/
def Chained : Nat → Nat → List SourceMapEntry → Prop
  | lo, hi, [] => lo ≤ hi
  | lo, hi, e :: rest =>
    lo ≤ e.Target.From.Index ∧ e.Target.From.Index ≤ e.Target.To.Index ∧
    Chained e.Target.To.Index hi rest

theorem Chained.weaken {lo hi : Nat} (lo2 : Nat) (h : lo2 ≤ lo) :
    ∀ {es : List SourceMapEntry}, Chained lo hi es → Chained lo2 hi es
  | [], hc => le_trans h hc
  | _ :: _, hc => ⟨le_trans h hc.1, hc.2.1, hc.2.2⟩

theorem Chained.append {lo mid hi : Nat} (ys : List SourceMapEntry) :
    ∀ (xs : List SourceMapEntry), Chained lo mid xs → Chained mid hi ys →
      Chained lo hi (xs ++ ys)
  | [], hx, hy => Chained.weaken lo hx hy
  | _ :: xs, hx, hy => ⟨hx.1, hx.2.1, Chained.append ys xs hx.2.2 hy⟩

theorem Chained.mem_lower {hi : Nat} :
    ∀ (lo : Nat) (es : List SourceMapEntry), Chained lo hi es →
      ∀ e ∈ es, lo ≤ e.Target.From.Index := by
  intro lo es
  induction es generalizing lo with
  | nil => intro _ e he; cases he
  | cons x rest ih =>
    intro hc e he
    rcases List.mem_cons.mp he with rfl | he2
    · exact hc.1
    · exact le_trans (le_trans hc.1 hc.2.1) (ih _ hc.2.2 e he2)

theorem Chained.pairwise {hi : Nat} :
    ∀ (lo : Nat) (es : List SourceMapEntry), Chained lo hi es →
      es.Pairwise (fun a b => a.Target.To.Index ≤ b.Target.From.Index) := by
  intro lo es
  induction es generalizing lo with
  | nil => intro _; exact List.Pairwise.nil
  | cons x rest ih =>
    intro hc
    exact List.Pairwise.cons (fun b hb => Chained.mem_lower _ rest hc.2.2 b hb) (ih _ hc.2.2)

/-- One generation step that leaves the template file unchanged, moves the
cursor forward, and appends exactly `k` symbol-range entries, all chained
between the cursor positions. -/
def SymStep (g gp : GenState) (k : Nat) : Prop :=
  gp.tf = g.tf ∧ g.pos.Index ≤ gp.pos.Index ∧
  ∃ delta, gp.sourceMap.SymbolRanges = g.sourceMap.SymbolRanges ++ delta ∧
    delta.length = k ∧ Chained g.pos.Index gp.pos.Index delta

theorem SymStep.base (g : GenState) : SymStep g g 0 :=
  ⟨rfl, le_refl _, [], by simp, rfl, le_refl _⟩

theorem SymStep.of_preserves {g gp : GenState} (h : Preserves g gp) : SymStep g gp 0 := by
  obtain ⟨htf, hop, hsym, hpos, s, hout⟩ := h
  exact ⟨htf, hpos, [], by simp [hsym], rfl, hpos⟩

theorem SymStep.comp {g g1 g2 : GenState} {k1 k2 : Nat} (h1 : SymStep g g1 k1)
    (h2 : SymStep g1 g2 k2) : SymStep g g2 (k1 + k2) := by
  obtain ⟨htf1, hpos1, d1, hs1, hl1, hc1⟩ := h1
  obtain ⟨htf2, hpos2, d2, hs2, hl2, hc2⟩ := h2
  refine ⟨htf2.trans htf1, le_trans hpos1 hpos2, d1 ++ d2, ?_, by simp [hl1, hl2], ?_⟩
  · rw [hs2, hs1, List.append_assoc]
  · exact Chained.append d2 d1 hc1 hc2

theorem SymStep.cast {g gp : GenState} {k k2 : Nat} (h : SymStep g gp k) (hk : k = k2) :
    SymStep g gp k2 := hk ▸ h

theorem SymStep_of_parts (g gB : GenState) (src : Range) (t : Position)
    (hP : Preserves g gB) (ht : t = gB.pos) :
    SymStep g (gB.addSymbolRange src ⟨g.pos, t⟩) 1 := by
  subst ht
  obtain ⟨htf, hop, hsym, hpos, s, hout⟩ := hP
  refine ⟨htf, hpos, [⟨src, ⟨g.pos, gB.pos⟩⟩], ?_, rfl, ?_⟩
  · show gB.sourceMap.SymbolRanges ++ [⟨src, ⟨g.pos, gB.pos⟩⟩]
      = g.sourceMap.SymbolRanges ++ [⟨src, ⟨g.pos, gB.pos⟩⟩]
    rw [hsym]
  · exact ⟨le_refl _, hpos, le_refl _⟩

theorem symStep_writeCSS (n : CSSTemplate) (g : GenState) : SymStep g (writeCSS n g) 1 := by
  simp only [writeCSS]
  refine SymStep_of_parts g _ n.CRange _ ?_ rfl
  exact Preserves.refl g |>.write_r "func " |>.write_r n.Expr.Value
    |>.sourceMapAdd_r n.Expr _ |>.write_r _ |>.writeIndent_r _ _
    |>.trans (Preserves_writeCSSProperties 1 n.Properties _)
    |>.writeIndent_r _ _ |>.writeIndent_r _ _ |>.writeIndent_r _ _ |>.writeIndent_r _ _
    |>.writeIndent_r _ _ |>.writeIndent_r _ _

theorem symStep_writeScript (t : ScriptTemplate) (g : GenState) :
    SymStep g (writeScript t g) 1 := by
  simp only [writeScript]
  refine SymStep_of_parts g _ t.SRange _ ?_ rfl
  exact Preserves.refl g |>.write_r "func " |>.write_r t.Name.Value
    |>.sourceMapAdd_r t.Name _ |>.write_r _ |>.write_r t.Parameters.Value
    |>.sourceMapAdd_r t.Parameters _ |>.write_r _ |>.writeIndent_r _ _ |>.writeIndent_r _ _
    |>.writeIndent_r _ _ |>.writeIndent_r _ _ |>.writeIndent_r _ _ |>.writeIndent_r _ _
    |>.writeIndent_r _ _

theorem symStep_writeTemplate (i : Nat) (t : HTMLTemplate) (g : GenState) :
    SymStep g (writeTemplate i t g) 1 := by
  simp only [writeTemplate]
  refine SymStep_of_parts g _ t.TRange _ ?_ rfl
  exact Preserves.refl g |>.write_r "func " |>.write_r t.Expr.Value
    |>.sourceMapAdd_r t.Expr _ |>.write_r _ |>.writeIndent_r _ _ |>.writeIndent_r _ _
    |>.writeIndent_r _ _ |>.writeIndent_r _ _ |>.writeIndent_r _ _
    |>.trans (Preserves_writeTemplBuffer 2 _) |>.writeIndent_r _ _
    |>.createVariableName_r |>.trans (Preserves_setChildrenVar _ _)
    |>.writeIndent_r _ _ |>.writeIndent_r _ _ |>.writeIndent_r _ _ |>.writeIndent_r _ _
    |>.writeIndent_r _ _
    |>.trans (Preserves_writeNodes 2 (stripWhitespace t.Children) none _)
    |>.writeIndent_r _ _ |>.writeIndent_r _ _ |>.writeIndent_r _ _

theorem symStep_writeGoExpression (n : Expression) (g : GenState) :
    (goExprLastLineComment n = true → SymStep g (writeGoExpression n g) 0) ∧
    (goExprLastLineComment n = false → SymStep g (writeGoExpression n g) 1) := by
  constructor
  · intro h
    simp only [writeGoExpression]
    rw [if_pos (show startsWithSlashSlash
      ((splitOnChar '\n' n.Value.data).getLast?.getD []) = true from h)]
    exact SymStep.of_preserves (Preserves.refl g |>.write_r n.Value
      |>.sourceMapAdd_r n _ |>.writeIndent_r 0 "\n")
  · intro h
    have h2 : startsWithSlashSlash ((splitOnChar '\n' n.Value.data).getLast?.getD []) = false := h
    simp only [writeGoExpression]
    rw [if_neg (by simp [h2])]
    refine SymStep_of_parts g _ n.ExprRange _ ?_ rfl
    exact Preserves.refl g |>.write_r n.Value |>.sourceMapAdd_r n _ |>.writeIndent_r 0 "\n\n"

/-- The number of symbol ranges contributed by the header blocks: one per
header expression whose last line is not a line comment. -/
def headerSymCount : List Expression → Nat
  | [] => 0
  | e :: rest => (if goExprLastLineComment e = true then 0 else 1) + headerSymCount rest

/-- The number of symbol ranges contributed by one top-level node. -/
def nodeSymWeight : TemplateFileNode → Nat
  | .TemplateFileGoExpression e => if goExprLastLineComment e = true then 0 else 1
  | _ => 1

/-- The number of symbol ranges contributed by the top-level nodes. -/
def nodesSymCount : List TemplateFileNode → Nat
  | [] => 0
  | n :: rest => nodeSymWeight n + nodesSymCount rest

theorem symStep_writeHeaderList : ∀ (hdr : List Expression) (g : GenState),
    SymStep g (writeHeaderList hdr g) (headerSymCount hdr)
  | [], g => by
    simp only [writeHeaderList, headerSymCount]
    exact SymStep.base g
  | e :: rest, g => by
    simp only [writeHeaderList, headerSymCount]
    by_cases h : goExprLastLineComment e = true
    · rw [if_pos h]
      exact ((symStep_writeGoExpression e g).1 h).comp
        (symStep_writeHeaderList rest (writeGoExpression e g))
    · rw [if_neg h]
      have hfalse : goExprLastLineComment e = false := by
        cases hgoe : goExprLastLineComment e
        · rfl
        · exact absurd hgoe h
      exact ((symStep_writeGoExpression e g).2 hfalse).comp
        (symStep_writeHeaderList rest (writeGoExpression e g))

theorem symStep_writeHeader (g : GenState) :
    SymStep g (writeHeader g) (headerSymCount g.tf.Header) := by
  simp only [writeHeader]
  split
  next h =>
    have hlen : g.tf.Header.length = 0 := by simpa using h
    have hnil : g.tf.Header = [] := List.length_eq_zero.mp hlen
    rw [hnil]
    simp only [headerSymCount]
    exact SymStep.base g
  next h => exact symStep_writeHeaderList g.tf.Header g

theorem symStep_writeTemplateNodesFrom :
    ∀ (nodes : List TemplateFileNode) (i : Nat) (g : GenState),
      SymStep g (writeTemplateNodesFrom i nodes g) (nodesSymCount nodes)
  | [], _, g => by
    simp only [writeTemplateNodesFrom, nodesSymCount]
    exact SymStep.base g
  | n :: rest, i, g => by
    simp only [writeTemplateNodesFrom, nodesSymCount]
    cases n with
    | TemplateFileGoExpression e =>
      simp only [nodeSymWeight]
      by_cases h : goExprLastLineComment e = true
      · rw [if_pos h]
        exact ((symStep_writeGoExpression e g).1 h).comp
          (symStep_writeTemplateNodesFrom rest (i + 1) _)
      · rw [if_neg h]
        have hfalse : goExprLastLineComment e = false := by
          cases hgoe : goExprLastLineComment e
          · rfl
          · exact absurd hgoe h
        exact ((symStep_writeGoExpression e g).2 hfalse).comp
          (symStep_writeTemplateNodesFrom rest (i + 1) _)
    | HTMLTemplateNode t =>
      simp only [nodeSymWeight]
      exact (symStep_writeTemplate i t g).comp (symStep_writeTemplateNodesFrom rest (i + 1) _)
    | CSSTemplateNode c =>
      simp only [nodeSymWeight]
      exact (symStep_writeCSS c g).comp (symStep_writeTemplateNodesFrom rest (i + 1) _)
    | ScriptTemplateNode s =>
      simp only [nodeSymWeight]
      exact (symStep_writeScript s g).comp (symStep_writeTemplateNodesFrom rest (i + 1) _)

theorem Preserves_writeCodeGeneratedComment (g : GenState) :
    Preserves g (writeCodeGeneratedComment g) := by
  unfold writeCodeGeneratedComment
  split
  · exact (Preserves.refl g).write_r _
  · exact (Preserves.refl g).write_r _

theorem Preserves_writeVersionComment (g : GenState) :
    Preserves g (writeVersionComment g) := by
  unfold writeVersionComment
  split
  · exact (Preserves.refl g).write_r _
  · exact Preserves.refl g

theorem Preserves_writeGeneratedDateComment (g : GenState) :
    Preserves g (writeGeneratedDateComment g) := by
  unfold writeGeneratedDateComment
  split
  · exact (Preserves.refl g).write_r _
  · exact Preserves.refl g

theorem Preserves_writePackage (g : GenState) : Preserves g (writePackage g) := by
  unfold writePackage
  exact Preserves.refl g |>.write_r _ |>.sourceMapAdd_r _ _ |>.write_r _

theorem Preserves_writeImports (g : GenState) : Preserves g (writeImports g) := by
  unfold writeImports
  exact Preserves.refl g |>.write_r _ |>.write_r _ |>.write_r _

theorem Preserves_writeBlankAssignmentForRuntimeImport (g : GenState) :
    Preserves g (writeBlankAssignmentForRuntimeImport g) := by
  unfold writeBlankAssignmentForRuntimeImport
  exact (Preserves.refl g).write_r _

theorem symStep_generate (g : GenState) :
    SymStep g (generate g) (headerSymCount g.tf.Header + nodesSymCount g.tf.Nodes) := by
  have s1 := SymStep.of_preserves (Preserves_writeCodeGeneratedComment g)
  have s2 := SymStep.of_preserves (Preserves_writeVersionComment (writeCodeGeneratedComment g))
  have s3 := SymStep.of_preserves (Preserves_writeGeneratedDateComment
    (writeVersionComment (writeCodeGeneratedComment g)))
  have a3 := (s1.comp s2).comp s3
  have s4 := symStep_writeHeader
    (writeGeneratedDateComment (writeVersionComment (writeCodeGeneratedComment g)))
  have s5 := SymStep.of_preserves (Preserves_writePackage (writeHeader
    (writeGeneratedDateComment (writeVersionComment (writeCodeGeneratedComment g)))))
  have s6 := SymStep.of_preserves (Preserves_writeImports (writePackage (writeHeader
    (writeGeneratedDateComment (writeVersionComment (writeCodeGeneratedComment g))))))
  have a6 := (((a3.comp s4).comp s5).comp s6)
  have s7 := symStep_writeTemplateNodesFrom
    (writeImports (writePackage (writeHeader (writeGeneratedDateComment (writeVersionComment
      (writeCodeGeneratedComment g)))))).tf.Nodes 0
    (writeImports (writePackage (writeHeader (writeGeneratedDateComment (writeVersionComment
      (writeCodeGeneratedComment g))))))
  have s8 := SymStep.of_preserves (Preserves_writeBlankAssignmentForRuntimeImport
    (writeTemplateNodes (writeImports (writePackage (writeHeader (writeGeneratedDateComment
      (writeVersionComment (writeCodeGeneratedComment g))))))))
  have call := (a6.comp s7).comp s8
  refine SymStep.cast call ?_
  rw [a3.1, a6.1]
  omega

/-- C2 (amended): for every template file, the generated source map has
exactly one symbol-range entry per top-level HTML, CSS and script template
and one per header expression, except that a header or pass-through Go
expression whose last line is a line comment contributes none; and the
entries are chained — monotonically increasing in their destination
ranges and pairwise non-overlapping. -/
theorem generate_symbol_ranges (tf : TemplateFile) (opts : GeneratorOptions) :
    (Generate tf opts).1.SourceMap.SymbolRanges.length
      = headerSymCount tf.Header + nodesSymCount tf.Nodes ∧
    Chained 0 ((generate (initialGenState tf opts)).pos.Index)
      ((Generate tf opts).1.SourceMap.SymbolRanges) ∧
    ((Generate tf opts).1.SourceMap.SymbolRanges).Pairwise
      (fun a b => a.Target.To.Index ≤ b.Target.From.Index) := by
  obtain ⟨htf, hpos, delta, hsym, hlen, hch⟩ := symStep_generate (initialGenState tf opts)
  have hd : (Generate tf opts).1.SourceMap.SymbolRanges = delta := by
    have h2 : (generate (initialGenState tf opts)).sourceMap.SymbolRanges
        = (initialGenState tf opts).sourceMap.SymbolRanges ++ delta := hsym
    simpa using h2
  refine ⟨?_, ?_, ?_⟩
  · rw [hd, hlen]
    rfl
  · rw [hd]
    exact hch
  · rw [hd]
    exact Chained.pairwise _ delta hch

def tfC2 : TemplateFile :=
  { Header := [⟨"// x", emptyRange⟩], Package := ⟨"package main", emptyRange⟩,
    Nodes := [.CSSTemplateNode ⟨⟨"blue()", emptyRange⟩, "blue",
      [.ConstantCSSProperty "color" "#0000ff"], emptyRange⟩] }

set_option maxRecDepth 200000 in
/-- C2 counterexample: a file with one header block (a line comment) and
one CSS template has one header block plus one template, but the generated
source map carries only one symbol-range entry — the header whose last
line is a line comment is emitted without one. -/
theorem generate_header_symbol_range_missing :
    tfC2.Header.length + tfC2.Nodes.length = 2 ∧
    (Generate tfC2 sampleOptions).1.SourceMap.SymbolRanges.length = 1 := by
  constructor
  · decide
  · decide

end Templ
